import Mathlib

/-!
# Verification of the OpenPayroll contract (src/contracts/lib.rs, src/contracts/errors.rs)

Shallow embedding of the ink! smart contract `open_payroll`.  Environment
inputs that the contract reads from the host (`block_number`, `caller`,
`balance`, the success of `transfer`) are passed as explicit parameters.
Fallible messages return `Except Error OpenPayroll`; per the ink! dispatch
semantics, a message that returns `Err` reverts every storage write, so an
`Except.error` result carries no new state and the caller keeps the old one
(the function `run` below makes that rollback explicit).

`Mapping<K, V>` is modelled as `K → Option V`; `BTreeMap<MultiplierId,
Multiplier>` is modelled as a sorted association list (`btreeInsert` keeps
keys strictly increasing, mirroring ordered-map insertion that overwrites
an existing key).
-/

namespace OpenPayrollModel

abbrev AccountId := Nat
abbrev MultiplierId := Nat
abbrev Multiplier := Nat
abbrev Balance := Nat
abbrev BlockNumber := Nat

/-- Maximum number of beneficiaries (src: `MAX_BENEFICIARIES`). -/
def MAX_BENEFICIARIES : Nat := 100

/-- Maximum number of multipliers (src: `MAX_MULTIPLIERS`). -/
def MAX_MULTIPLIERS : Nat := 10

/-- Error enumeration from src/contracts/errors.rs. -/
inductive Error where
  | NotOwner
  | ContractIsPaused
  | InvalidParams
  | AccountNotFound
  | NotEnoughBalanceInTreasury
  | TransferFailed
  | NoUnclaimedPayments
  | PaymentsNotUpToDate
  | NotAllClaimedInPeriod
  | ClaimedAmountIsBiggerThanAvailable
  | InvalidMultipliersLength
  | MultiplierNotFound
  | MultiplierAlreadyDeactivated
  | MultiplierNotDeactivated
  | DuplicatedMultipliers
  | DuplicatedBeneficiaries
  | MultiplierNotExpired
  -- The following variants are referenced from lib.rs (lines 217, 220, 522, 672)
  -- though absent from the errors.rs revision shipped alongside it.
  | AccountAlreadyExists
  | MaxBeneficiariesExceeded
  | MaxMultipliersExceeded
  | Overflow
  deriving DecidableEq, Repr

/-- src: `struct BaseMultiplier` -/
structure BaseMultiplier where
  name : String
  valid_until_block : Option BlockNumber
  deriving DecidableEq, Repr

/-- src: `BaseMultiplier::new` -/
def BaseMultiplier.mk_new (name : String) : BaseMultiplier :=
  { name := name, valid_until_block := none }

/-- src: `struct Beneficiary` -/
structure Beneficiary where
  account_id : AccountId
  multipliers : List (MultiplierId × Multiplier)
  unclaimed_payments : Balance
  last_updated_period_block : BlockNumber
  deriving DecidableEq, Repr

/-- src: `struct InitialBeneficiary` -/
structure InitialBeneficiary where
  account_id : AccountId
  multipliers : List (MultiplierId × Multiplier)
  deriving DecidableEq, Repr

/-- src: `struct ClaimsInPeriod` -/
structure ClaimsInPeriod where
  period : BlockNumber
  total_claims : Nat
  deriving DecidableEq, Repr

/-- src: `struct OpenPayroll` (the `#[ink(storage)]` struct). -/
structure OpenPayroll where
  proposed_owner : Option AccountId
  owner : AccountId
  beneficiaries : AccountId → Option Beneficiary
  beneficiaries_accounts : List AccountId
  periodicity : Nat
  base_payment : Balance
  initial_block : BlockNumber
  paused_block_at : Option BlockNumber
  next_multiplier_id : MultiplierId
  base_multipliers : MultiplierId → Option BaseMultiplier
  multipliers_list : List MultiplierId
  claims_in_period : ClaimsInPeriod

/-- Ordered-map insertion into a key-sorted association list; overwrites an
existing key, mirroring `BTreeMap::insert`. -/
def btreeInsert (k : MultiplierId) (v : Multiplier) :
    List (MultiplierId × Multiplier) → List (MultiplierId × Multiplier)
  | [] => [(k, v)]
  | (k', v') :: rest =>
    if k < k' then (k, v) :: (k', v') :: rest
    else if k = k' then (k, v) :: rest
    else (k', v') :: btreeInsert k v rest

/-- src: `vec_to_btreemap` -/
def vec_to_btreemap (l : List (MultiplierId × Multiplier)) :
    List (MultiplierId × Multiplier) :=
  l.foldl (fun m p => btreeInsert p.1 p.2 m) []

/-- Adjacent-duplicate scan performed by the `for i in 1..len` loops of
`check_no_duplicate_beneficiaries` / `check_no_duplicate_multipliers`
(after sorting): `true` iff two consecutive elements have equal keys. -/
def hasAdjDup : List Nat → Bool
  | [] => false
  | [_] => false
  | a :: b :: rest => a == b || hasAdjDup (b :: rest)

/-- src: `check_no_duplicate_beneficiaries` (sort by key, then scan for an
adjacent duplicate). -/
def check_no_duplicate_beneficiaries (beneficiaries : List AccountId) :
    Except Error Unit :=
  let sorted := beneficiaries.insertionSort (· ≤ ·)
  if hasAdjDup sorted then .error .DuplicatedBeneficiaries else .ok ()

/-- src: `check_no_duplicate_multipliers` (sort by multiplier id, then scan
for an adjacent duplicate id). -/
def check_no_duplicate_multipliers (multipliers : List (MultiplierId × Multiplier)) :
    Except Error Unit :=
  let sorted := (multipliers.map Prod.fst).insertionSort (· ≤ ·)
  if hasAdjDup sorted then .error .DuplicatedMultipliers else .ok ()

/-- src: `get_current_period_initial_block`:
`current_block - ((current_block - self.initial_block) % self.periodicity)`. -/
def get_current_period_initial_block (s : OpenPayroll) (current_block : BlockNumber) :
    BlockNumber :=
  current_block - ((current_block - s.initial_block) % s.periodicity)

/-- src: `get_next_block_period`. -/
def get_next_block_period (s : OpenPayroll) (current_block : BlockNumber) : BlockNumber :=
  get_current_period_initial_block s current_block + s.periodicity

/-- src: `ensure_owner` (the caller is an environment input). -/
def ensure_owner (s : OpenPayroll) (caller : AccountId) : Except Error Unit :=
  if s.owner ≠ caller then .error .NotOwner else .ok ()

/-- src: `is_paused`. -/
def is_paused (s : OpenPayroll) : Bool :=
  s.paused_block_at.isSome

/-- src: `ensure_is_not_paused`. -/
def ensure_is_not_paused (s : OpenPayroll) : Except Error Unit :=
  if is_paused s then .error .ContractIsPaused else .ok ()

/-- src: `check_multipliers_are_valid`: every referenced id must exist and
must not carry a `valid_until_block`. -/
def check_multipliers_are_valid (s : OpenPayroll)
    (multipliers : List (MultiplierId × Multiplier)) : Except Error Unit :=
  multipliers.foldr
    (fun p acc =>
      match s.base_multipliers p.1 with
      | none => .error .MultiplierNotFound
      | some m =>
        if m.valid_until_block.isSome then .error .MultiplierAlreadyDeactivated
        else acc)
    (.ok ())

/-- The retain predicate inside `claim_payment`: keep a multiplier if it is
not deactivated, or it is deactivated but `valid_until_block > current_block`.
The source `unwrap`s the registry lookup (a missing id would panic); theorems
about `claim_payment` therefore assume every referenced id is present, making
the `none` branch irrelevant. -/
def multiplierStillValid (s : OpenPayroll) (current_block : BlockNumber)
    (k : MultiplierId) : Bool :=
  match s.base_multipliers k with
  | some m =>
    match m.valid_until_block with
    | none => true
    | some v => current_block < v
  | none => false

/-- src: `_get_amount_to_claim_for_one_period`.
`filtered_multipliers = true` sums every weight the beneficiary carries;
`false` sums only weights whose multiplier has no `valid_until_block`.
An empty multiplier map yields the constant `1`. -/
def amount_to_claim_for_one_period (s : OpenPayroll) (beneficiary : Beneficiary)
    (filtered_multipliers : Bool) : Balance :=
  let final_multiplier : Nat :=
    if beneficiary.multipliers.isEmpty then 1
    else
      match filtered_multipliers with
      | true => (beneficiary.multipliers.map Prod.snd).sum
      | false =>
        ((beneficiary.multipliers.filter
            (fun p => ((s.base_multipliers p.1).bind BaseMultiplier.valid_until_block).isNone)).map
          Prod.snd).sum
  final_multiplier * s.base_payment / 100

/-- src: `_get_amount_to_claim_in_block`, for a beneficiary value already in
hand (the source re-reads it from storage; `amount_to_claim_in_block` below
performs that read). -/
def amount_to_claim_in_block_of (s : OpenPayroll) (beneficiary : Beneficiary)
    (filtered_multipliers : Bool) (block : BlockNumber) : Balance :=
  let blocks_since_last_payment := block - beneficiary.last_updated_period_block
  let unclaimed_periods := blocks_since_last_payment / s.periodicity
  if unclaimed_periods = 0 then beneficiary.unclaimed_payments
  else
    amount_to_claim_for_one_period s beneficiary filtered_multipliers * unclaimed_periods
      + beneficiary.unclaimed_payments

/-- src: `_get_amount_to_claim_in_block` (the source `unwrap`s the storage
read; callers establish existence, so the `none` branch is never relevant
under the hypotheses of the theorems below). -/
def amount_to_claim_in_block (s : OpenPayroll) (account_id : AccountId)
    (filtered_multipliers : Bool) (block : BlockNumber) : Balance :=
  match s.beneficiaries account_id with
  | some b => amount_to_claim_in_block_of s b filtered_multipliers block
  | none => 0

/-- src: `get_amount_to_claim` (public read-only message): checks existence,
then calls the internal computation with `filtered_multipliers = false`. -/
def get_amount_to_claim (s : OpenPayroll) (account_id : AccountId)
    (current_block : BlockNumber) : Except Error Balance :=
  if (s.beneficiaries account_id).isNone then .error .AccountNotFound
  else .ok (amount_to_claim_in_block s account_id false current_block)

/-- src: `_update_claims_in_period`. -/
def update_claims_in_period (s : OpenPayroll) (claiming_period_block : BlockNumber) :
    OpenPayroll :=
  if claiming_period_block = s.claims_in_period.period then
    { s with claims_in_period :=
        { s.claims_in_period with total_claims := s.claims_in_period.total_claims + 1 } }
  else
    { s with claims_in_period := { period := claiming_period_block, total_claims := 1 } }

/-- src: `ensure_all_claimed_in_period`. -/
def ensure_all_claimed_in_period (s : OpenPayroll) (current_block : BlockNumber) :
    Except Error Unit :=
  let claiming_period_block := get_current_period_initial_block s current_block
  if (claiming_period_block = s.claims_in_period.period
        ∧ s.claims_in_period.total_claims = s.beneficiaries_accounts.length)
      ∨ claiming_period_block = 0 then
    .ok ()
  else
    .error .NotAllClaimedInPeriod

/-- Functional update of a `Mapping` at one key. -/
def mapInsert {V : Type} (m : Nat → Option V) (k : Nat) (v : V) : Nat → Option V :=
  fun k' => if k' = k then some v else m k'

/-- Functional removal of a `Mapping` key. -/
def mapRemove {V : Type} (m : Nat → Option V) (k : Nat) : Nat → Option V :=
  fun k' => if k' = k then none else m k'

/-- src: `claim_payment`.  `treasury_balance` stands for `self.env().balance()`
and `transfer_ok` for the success of `self.env().transfer(..)`; per ink!
semantics an `Except.error` result means every staged write is reverted. -/
def claim_payment (s : OpenPayroll) (account_id : AccountId) (amount : Balance)
    (current_block : BlockNumber) (treasury_balance : Balance) (transfer_ok : Bool) :
    Except Error OpenPayroll := do
  let _ ← ensure_is_not_paused s
  match s.beneficiaries account_id with
  | none => .error .AccountNotFound
  | some beneficiary =>
    -- local purge of deactivated-and-expired multipliers (storage not yet written)
    let retained := beneficiary.multipliers.filter
      (fun p => multiplierStillValid s current_block p.1)
    -- the source re-reads the *stored* beneficiary here (see `_get_amount_to_claim`)
    let total_payment := amount_to_claim_in_block s account_id true current_block
    if amount > total_payment then .error .ClaimedAmountIsBiggerThanAvailable
    else if amount > treasury_balance then .error .NotEnoughBalanceInTreasury
    else
      let claiming_period_block := get_current_period_initial_block s current_block
      let s₁ :=
        if beneficiary.last_updated_period_block ≠ claiming_period_block then
          update_claims_in_period s claiming_period_block
        else s
      let newBen : Beneficiary :=
        { account_id := account_id
          multipliers := retained
          unclaimed_payments := total_payment - amount
          last_updated_period_block := claiming_period_block }
      let s₂ := { s₁ with beneficiaries := mapInsert s₁.beneficiaries account_id newBen }
      if amount > 0 ∧ transfer_ok = false then .error .TransferFailed
      else .ok s₂

/-- src: `deactivate_multiplier` (no ownership check appears in the source). -/
def deactivate_multiplier (s : OpenPayroll) (multiplier_id : MultiplierId)
    (current_block : BlockNumber) : Except Error OpenPayroll :=
  match s.base_multipliers multiplier_id with
  | none => .error .MultiplierNotFound
  | some multiplier =>
    if multiplier.valid_until_block.isSome then .error .MultiplierAlreadyDeactivated
    else
      let valid_until_block := get_current_period_initial_block s current_block + s.periodicity
      let updated : BaseMultiplier := { multiplier with valid_until_block := some valid_until_block }
      .ok { s with base_multipliers := mapInsert s.base_multipliers multiplier_id updated }

/-- src: `delete_unused_multiplier` (no ownership check appears in the source).
Note the source's expiry test: it errors with `MultiplierNotExpired` when
`current_block > valid_until_block`. -/
def delete_unused_multiplier (s : OpenPayroll) (multiplier_id : MultiplierId)
    (current_block : BlockNumber) : Except Error OpenPayroll := do
  match s.base_multipliers multiplier_id with
  | none => .error .MultiplierNotFound
  | some multiplier =>
    match multiplier.valid_until_block with
    | none => .error .MultiplierNotDeactivated
    | some valid_until =>
      if current_block > valid_until then .error .MultiplierNotExpired
      else do
        let _ ← ensure_all_claimed_in_period s current_block
        .ok { s with
          multipliers_list := s.multipliers_list.filter (fun x => x ≠ multiplier_id)
          base_multipliers := mapRemove s.base_multipliers multiplier_id }

/-- src: `propose_transfer_ownership`. -/
def propose_transfer_ownership (s : OpenPayroll) (caller new_owner : AccountId) :
    Except Error OpenPayroll := do
  let _ ← ensure_owner s caller
  .ok { s with proposed_owner := some new_owner }

/-- src: `accept_ownership`. -/
def accept_ownership (s : OpenPayroll) (caller : AccountId) : Except Error OpenPayroll :=
  if s.proposed_owner = some caller then
    .ok { s with owner := caller, proposed_owner := none }
  else .error .NotOwner

/-- src: `check_beneficiary_to_add`. -/
def check_beneficiary_to_add (s : OpenPayroll) (caller : AccountId)
    (account_id : AccountId) (multipliers : List (MultiplierId × Multiplier)) :
    Except Error Unit := do
  let _ ← ensure_owner s caller
  if (s.beneficiaries account_id).isSome then .error .AccountAlreadyExists
  else if s.beneficiaries_accounts.length + 1 > MAX_BENEFICIARIES then
    .error .MaxBeneficiariesExceeded
  else do
    let _ ← check_multipliers_are_valid s multipliers
    let _ ← check_no_duplicate_multipliers multipliers
    .ok ()

/-- src: `add_beneficiary`. -/
def add_beneficiary (s : OpenPayroll) (caller : AccountId) (account_id : AccountId)
    (multipliers : List (MultiplierId × Multiplier)) (current_block : BlockNumber) :
    Except Error OpenPayroll := do
  let _ ← check_beneficiary_to_add s caller account_id multipliers
  let newBen : Beneficiary :=
    { account_id := account_id
      multipliers := vec_to_btreemap multipliers
      unclaimed_payments := 0
      last_updated_period_block := get_current_period_initial_block s current_block }
  .ok { s with
    beneficiaries := mapInsert s.beneficiaries account_id newBen
    beneficiaries_accounts := s.beneficiaries_accounts ++ [account_id] }

/-- src: `update_beneficiary`. -/
def update_beneficiary (s : OpenPayroll) (caller : AccountId) (account_id : AccountId)
    (multipliers : List (MultiplierId × Multiplier)) (current_block : BlockNumber) :
    Except Error OpenPayroll := do
  let _ ← ensure_owner s caller
  if (s.beneficiaries account_id).isNone then .error .AccountNotFound
  else do
    let _ ← check_multipliers_are_valid s multipliers
    let _ ← check_no_duplicate_multipliers multipliers
    let unclaimed_payments := amount_to_claim_in_block s account_id false current_block
    let newBen : Beneficiary :=
      { account_id := account_id
        multipliers := vec_to_btreemap multipliers
        unclaimed_payments := unclaimed_payments
        last_updated_period_block := get_current_period_initial_block s current_block }
    .ok { s with beneficiaries := mapInsert s.beneficiaries account_id newBen }

/-- src: `remove_beneficiary`. -/
def remove_beneficiary (s : OpenPayroll) (caller : AccountId) (account_id : AccountId) :
    Except Error OpenPayroll := do
  let _ ← ensure_owner s caller
  if (s.beneficiaries account_id).isNone then .error .AccountNotFound
  else
    .ok { s with
      beneficiaries := mapRemove s.beneficiaries account_id
      beneficiaries_accounts := s.beneficiaries_accounts.filter (fun x => x ≠ account_id) }

/-- src: `update_base_payment`. -/
def update_base_payment (s : OpenPayroll) (caller : AccountId) (base_payment : Balance)
    (current_block : BlockNumber) : Except Error OpenPayroll := do
  let _ ← ensure_owner s caller
  if base_payment = 0 then .error .InvalidParams
  else do
    let _ ← ensure_all_claimed_in_period s current_block
    .ok { s with base_payment := base_payment }

/-- src: `add_base_multiplier` (`next_multiplier_id` is a `u32`; the
`checked_add` overflow test is modelled against `2^32`). -/
def add_base_multiplier (s : OpenPayroll) (caller : AccountId) (name : String) :
    Except Error OpenPayroll := do
  let _ ← ensure_owner s caller
  if s.multipliers_list.length + 1 > MAX_MULTIPLIERS then .error .MaxMultipliersExceeded
  else if s.next_multiplier_id + 1 ≥ 2 ^ 32 then .error .Overflow
  else
    .ok { s with
      base_multipliers := mapInsert s.base_multipliers s.next_multiplier_id
        (BaseMultiplier.mk_new name)
      multipliers_list := s.multipliers_list ++ [s.next_multiplier_id]
      next_multiplier_id := s.next_multiplier_id + 1 }

/-- src: `update_periodicity`. -/
def update_periodicity (s : OpenPayroll) (caller : AccountId) (periodicity : Nat)
    (current_block : BlockNumber) : Except Error OpenPayroll := do
  let _ ← ensure_owner s caller
  if periodicity = 0 then .error .InvalidParams
  else do
    let _ ← ensure_all_claimed_in_period s current_block
    .ok { s with periodicity := periodicity }

/-- src: `pause`. -/
def pause (s : OpenPayroll) (caller : AccountId) (current_block : BlockNumber) :
    Except Error OpenPayroll := do
  let _ ← ensure_owner s caller
  if is_paused s then .ok s
  else .ok { s with paused_block_at := some current_block }

/-- src: `resume`. -/
def resume (s : OpenPayroll) (caller : AccountId) : Except Error OpenPayroll := do
  let _ ← ensure_owner s caller
  if ¬ is_paused s then .ok s
  else .ok { s with paused_block_at := none }

/-- The beneficiary-construction loop inside the constructor `new`: checks the
multiplier-count and duplicate-multiplier conditions for each initial
beneficiary, then inserts it into the map and appends its account. -/
def buildInitialBeneficiaries (initial_block_number : BlockNumber)
    (multipliers_count : Nat) :
    List InitialBeneficiary → (AccountId → Option Beneficiary) → List AccountId →
    Except Error ((AccountId → Option Beneficiary) × List AccountId)
  | [], m, accts => .ok (m, accts)
  | bd :: rest, m, accts =>
    if bd.multipliers.length ≠ multipliers_count then .error .InvalidMultipliersLength
    else
      match check_no_duplicate_multipliers bd.multipliers with
      | .error e => .error e
      | .ok _ =>
        buildInitialBeneficiaries initial_block_number multipliers_count rest
          (mapInsert m bd.account_id
            { account_id := bd.account_id
              multipliers := vec_to_btreemap bd.multipliers
              unclaimed_payments := 0
              last_updated_period_block := initial_block_number })
          (accts ++ [bd.account_id])

/-- src: the constructor `new`.  `initial_block_number` is
`Self::env().block_number()` and `caller` is `Self::env().caller()`. -/
def new (periodicity : Nat) (base_payment : Balance)
    (initial_base_multipliers : List String)
    (initial_beneficiaries : List InitialBeneficiary)
    (initial_block_number : BlockNumber) (caller : AccountId) :
    Except Error OpenPayroll := do
  if base_payment = 0 ∨ periodicity = 0 then .error .InvalidParams
  else do
    let _ ← check_no_duplicate_beneficiaries (initial_beneficiaries.map (·.account_id))
    if initial_beneficiaries.length > MAX_BENEFICIARIES then .error .MaxBeneficiariesExceeded
    else if initial_base_multipliers.length > MAX_MULTIPLIERS then
      .error .MaxMultipliersExceeded
    else
      -- the multiplier loop assigns ids 0, 1, ... in order
      let n := initial_base_multipliers.length
      let base_multipliers : MultiplierId → Option BaseMultiplier := fun id =>
        (initial_base_multipliers.get? id).map BaseMultiplier.mk_new
      let multipliers_list := List.range n
      match buildInitialBeneficiaries initial_block_number n initial_beneficiaries
          (fun _ => none) [] with
      | .error e => .error e
      | .ok (beneficiaries, accounts) =>
        .ok { proposed_owner := none
              owner := caller
              beneficiaries := beneficiaries
              beneficiaries_accounts := accounts
              periodicity := periodicity
              base_payment := base_payment
              initial_block := initial_block_number
              paused_block_at := none
              next_multiplier_id := n
              base_multipliers := base_multipliers
              multipliers_list := multipliers_list
              claims_in_period := { period := 0, total_claims := 0 } }

/-- ink! message dispatch: a message whose body returns `Err` reverts all
storage writes, so the caller observes the old state together with the error. -/
def run (s : OpenPayroll) (r : Except Error OpenPayroll) : OpenPayroll × Except Error Unit :=
  match r with
  | .ok s' => (s', .ok ())
  | .error e => (s, .error e)

/-! ## Concrete states used by witnesses and counterexamples

`state0` replays the construction used throughout the contract's own test
suite: periodicity 2, base payment 1000, multipliers "Seniority" (id 0) and
"Performance" (id 1), and beneficiaries 1 (bob) and 2 (charlie), each with
weights `[(0, 100), (1, 3)]`, constructed at block 0 by caller 0. -/

/-- Fallback used only to destructure `Except` values of concrete traces. -/
def dummyState : OpenPayroll :=
  { proposed_owner := none, owner := 0, beneficiaries := fun _ => none
    beneficiaries_accounts := [], periodicity := 1, base_payment := 1
    initial_block := 0, paused_block_at := none, next_multiplier_id := 0
    base_multipliers := fun _ => none, multipliers_list := []
    claims_in_period := { period := 0, total_claims := 0 } }

/-- Extract the success state of a concrete operation (traces below always
verify separately that the operation did succeed). -/
def okState (r : Except Error OpenPayroll) : OpenPayroll :=
  match r with
  | .ok s => s
  | .error _ => dummyState

def initBens : List InitialBeneficiary :=
  [{ account_id := 1, multipliers := [(0, 100), (1, 3)] },
   { account_id := 2, multipliers := [(0, 100), (1, 3)] }]

def state0 : OpenPayroll :=
  okState (new 2 1000 ["Seniority", "Performance"] initBens 0 0)

/-- The stored record of beneficiary 1 in `state0`. -/
def bob0 : Beneficiary :=
  { account_id := 1, multipliers := [(0, 100), (1, 3)]
    unclaimed_payments := 0, last_updated_period_block := 0 }

/-- `state0` after `deactivate_multiplier 1` at block 0
(`valid_until_block` becomes `0 - (0 % 2) + 2 = 2`). -/
def state0deact : OpenPayroll := okState (deactivate_multiplier state0 1 0)

/-- Same construction as `state0` but with no initial beneficiaries. -/
def stateE : OpenPayroll := okState (new 2 1000 ["Seniority", "Performance"] [] 0 0)

/-- `stateE` with beneficiary 3 added at block 0 with an empty weight set. -/
def stateE1 : OpenPayroll := okState (add_beneficiary stateE 0 3 [] 0)

/-- The stored record of beneficiary 3 in `stateE1`. -/
def benE : Beneficiary :=
  { account_id := 3, multipliers := [], unclaimed_payments := 0
    last_updated_period_block := 0 }

/-- Projection: the stored `unclaimed_payments` of an account after an
operation (``none`` when the operation failed or the account is absent). -/
def unclaimedAfter (r : Except Error OpenPayroll) (a : AccountId) : Option Balance :=
  match r with
  | .ok st => (st.beneficiaries a).map Beneficiary.unclaimed_payments
  | .error _ => none

/-- Projection: the stored multiplier set of an account after an operation. -/
def multipliersAfter (r : Except Error OpenPayroll) (a : AccountId) :
    Option (List (MultiplierId × Multiplier)) :=
  match r with
  | .ok st => (st.beneficiaries a).map Beneficiary.multipliers
  | .error _ => none

/-- A multiplier record with its expiry set (used to phrase the result of
`deactivate_multiplier`). -/
def deactivated (m : BaseMultiplier) (v : BlockNumber) : BaseMultiplier :=
  { m with valid_until_block := some v }

/-! ## Helper lemmas -/

@[simp]
theorem exceptBind_error {α β : Type} (e : Error) (f : α → Except Error β) :
    (Except.error e : Except Error α) >>= f = .error e := rfl

@[simp]
theorem exceptBind_ok {α β : Type} (x : α) (f : α → Except Error β) :
    (Except.ok x : Except Error α) >>= f = f x := rfl

/-! ## Claims -/

/-- **C1**: for every beneficiary and tick, the amount owed as of that tick
(as computed by `_get_amount_to_claim_in_block` with the unfiltered multiplier
sum used by claims) equals `unclaimed_balance` when
`(tick - last_settled_period_start) div periodicity = 0`, and otherwise
`(multiplier_sum * base_payment / 100) * periods_due + unclaimed_balance`
with truncating division throughout. -/
theorem C1_amount_owed_formula (s : OpenPayroll) (a : AccountId) (b : Beneficiary)
    (block : BlockNumber) (hb : s.beneficiaries a = some b) (hne : b.multipliers ≠ []) :
    amount_to_claim_in_block s a true block =
      if (block - b.last_updated_period_block) / s.periodicity = 0 then
        b.unclaimed_payments
      else
        ((b.multipliers.map Prod.snd).sum * s.base_payment / 100)
            * ((block - b.last_updated_period_block) / s.periodicity)
          + b.unclaimed_payments := by
  simp [amount_to_claim_in_block, hb, amount_to_claim_in_block_of,
    amount_to_claim_for_one_period, List.isEmpty_iff, hne]

/-- Witness for C1: in `state0` (periodicity 2, base payment 1000, weights 100
and 3) beneficiary 1 is owed `(103 * 1000 / 100) * 1 + 0 = 1030` at block 3. -/
theorem C1_amount_owed_formula_witness :
    state0.beneficiaries 1 = some bob0 ∧ bob0.multipliers ≠ [] ∧
    amount_to_claim_in_block state0 1 true 3 = 1030 := by
  refine ⟨by decide, by decide, ?_⟩
  rw [C1_amount_owed_formula state0 1 bob0 3 (by decide) (by decide)]
  decide

/-- **C7 counterexample**: in `stateE1` the base payment is 1000 and
beneficiary 3 has no multipliers, yet the per-period accrual is
`1 * 1000 / 100 = 10`, not the full base payment 1000. -/
theorem C7_counterexample :
    stateE1.beneficiaries 3 = some benE ∧ stateE1.base_payment = 1000 ∧
    amount_to_claim_for_one_period stateE1 benE true = 10 ∧
    amount_to_claim_in_block stateE1 3 true 2 = 10 ∧ (10 : Nat) ≠ 1000 := by
  decide

/-- **C7 (amended)**: for every beneficiary whose multiplier set is empty, the
per-period accrual equals `base_payment / 100` (the multiplier sum is treated
as the constant 1, i.e. one percent of the base payment, not the full base
payment). -/
theorem C7_empty_multiplier_set (s : OpenPayroll) (b : Beneficiary) (f : Bool)
    (h : b.multipliers = []) :
    amount_to_claim_for_one_period s b f = s.base_payment / 100 := by
  simp [amount_to_claim_for_one_period, h]

/-- Witness for the amended C7 at the concrete state `stateE1`. -/
theorem C7_empty_multiplier_set_witness :
    amount_to_claim_for_one_period stateE1 benE true = stateE1.base_payment / 100 :=
  C7_empty_multiplier_set stateE1 benE true (by decide)

/-- **C3** (code bug): in `state0deact` multiplier 1 is deactivated with
`valid_until_block = 2`; calling `delete_unused_multiplier` at block 3
(strictly after expiry, with the all-claimed gate satisfied because the
current period start is 0) fails with `MultiplierNotExpired`, while calling it
at block 1 (before expiry) succeeds and removes the multiplier.  The source's
test `current_block > valid_until_block → MultiplierNotExpired` is the exact
inversion of its own comment ("Check if the multiplier is expired"), of the
error's documentation ("The multiplier is not expired yet"), and of the doc
on `deactivate_multiplier` ("It can be deleted one period after
deactivation"). -/
theorem C3_delete_expiry_check_inverted :
    (state0deact.base_multipliers 1).map BaseMultiplier.valid_until_block
        = some (some 2) ∧
    delete_unused_multiplier state0deact 1 3 = .error .MultiplierNotExpired ∧
    (delete_unused_multiplier state0deact 1 1).isOk = true ∧
    (okState (delete_unused_multiplier state0deact 1 1)).multipliers_list = [0] := by
  refine ⟨by decide, by rfl, by decide, by decide⟩

/-- **C9 counterexample**: the owner of `state0` is account 0, yet
`deactivate_multiplier` performs no ownership check at all (the source never
reads the caller in that message), so invoking it — by any caller, in
particular a non-owner — succeeds instead of failing with `NotOwner`. -/
theorem C9_counterexample :
    state0.owner = 0 ∧ (deactivate_multiplier state0 0 5).isOk = true ∧
    (okState (deactivate_multiplier state0 0 5)).base_multipliers 0
      = some { name := "Seniority", valid_until_block := some 6 } := by
  decide

/-- **C9 (amended)**: the mutating administrative operations that do check
ownership — add/update/remove beneficiary, add multiplier, update base
payment, update periodicity, pause, resume, propose ownership transfer —
fail with `NotOwner` (hence, by the revert semantics, change no state) when
the caller is not the owner; `deactivate_multiplier` and
`delete_unused_multiplier` perform no ownership check and can never return
`NotOwner`. -/
theorem C9_owner_gating :
    (∀ s caller a m B, s.owner ≠ caller →
        add_beneficiary s caller a m B = .error .NotOwner) ∧
    (∀ s caller a m B, s.owner ≠ caller →
        update_beneficiary s caller a m B = .error .NotOwner) ∧
    (∀ s caller a, s.owner ≠ caller →
        remove_beneficiary s caller a = .error .NotOwner) ∧
    (∀ s caller v B, s.owner ≠ caller →
        update_base_payment s caller v B = .error .NotOwner) ∧
    (∀ s caller n, s.owner ≠ caller →
        add_base_multiplier s caller n = .error .NotOwner) ∧
    (∀ s caller v B, s.owner ≠ caller →
        update_periodicity s caller v B = .error .NotOwner) ∧
    (∀ s caller B, s.owner ≠ caller → pause s caller B = .error .NotOwner) ∧
    (∀ s caller, s.owner ≠ caller → resume s caller = .error .NotOwner) ∧
    (∀ s caller n, s.owner ≠ caller →
        propose_transfer_ownership s caller n = .error .NotOwner) ∧
    (∀ s id B, deactivate_multiplier s id B ≠ .error .NotOwner) ∧
    (∀ s id B, delete_unused_multiplier s id B ≠ .error .NotOwner) := by
  refine ⟨?_, ?_, ?_, ?_, ?_, ?_, ?_, ?_, ?_, ?_, ?_⟩
  · intro s caller a m B h
    simp [add_beneficiary, check_beneficiary_to_add, ensure_owner, h]
  · intro s caller a m B h
    simp [update_beneficiary, ensure_owner, h]
  · intro s caller a h
    simp [remove_beneficiary, ensure_owner, h]
  · intro s caller v B h
    simp [update_base_payment, ensure_owner, h]
  · intro s caller n h
    simp [add_base_multiplier, ensure_owner, h]
  · intro s caller v B h
    simp [update_periodicity, ensure_owner, h]
  · intro s caller B h
    simp [pause, ensure_owner, h]
  · intro s caller h
    simp [resume, ensure_owner, h]
  · intro s caller n h
    simp [propose_transfer_ownership, ensure_owner, h]
  · intro s id B
    unfold deactivate_multiplier
    cases hm : s.base_multipliers id with
    | none => simp
    | some m =>
      by_cases hv : m.valid_until_block.isSome
      · simp [hv]
      · simp [hv]
  · intro s id B
    unfold delete_unused_multiplier
    cases hm : s.base_multipliers id with
    | none => simp
    | some m =>
      cases hv : m.valid_until_block with
      | none => simp [hv]
      | some v =>
        simp only [hv]
        by_cases hgt : v < B
        · simp [hgt]
        · simp only [hgt, if_false]
          unfold ensure_all_claimed_in_period
          by_cases hc : (get_current_period_initial_block s B = s.claims_in_period.period
                ∧ s.claims_in_period.total_claims = s.beneficiaries_accounts.length)
              ∨ get_current_period_initial_block s B = 0
          · simp [hc]
          · simp [hc]

/-- Witness for the amended C9: in `state0` the owner is 0, so caller 5 is
rejected with `NotOwner` by the owner-checked operations. -/
theorem C9_owner_gating_witness :
    update_base_payment state0 5 900 0 = .error .NotOwner ∧
    remove_beneficiary state0 5 1 = .error .NotOwner ∧
    pause state0 5 0 = .error .NotOwner := by
  refine ⟨C9_owner_gating.2.2.2.1 state0 5 900 0 (by decide),
    C9_owner_gating.2.2.1 state0 5 1 (by decide),
    C9_owner_gating.2.2.2.2.2.2.1 state0 5 0 (by decide)⟩

/-- The beneficiary record written back by a successful claim: purged
multiplier set, remaining owed balance, current period start. -/
def purgedBeneficiary (s : OpenPayroll) (a : AccountId) (b : Beneficiary)
    (amount : Balance) (B : BlockNumber) : Beneficiary :=
  { account_id := a
    multipliers := b.multipliers.filter (fun p => multiplierStillValid s B p.1)
    unclaimed_payments := amount_to_claim_in_block s a true B - amount
    last_updated_period_block := get_current_period_initial_block s B }

/-- The full state produced by a successful claim. -/
def claimState (s : OpenPayroll) (a : AccountId) (b : Beneficiary)
    (amount : Balance) (B : BlockNumber) : OpenPayroll :=
  let PS := get_current_period_initial_block s B
  let s₁ := if b.last_updated_period_block ≠ PS
    then update_claims_in_period s PS else s
  { s₁ with beneficiaries := (mapInsert s₁.beneficiaries a
      (purgedBeneficiary s a b amount B)) }

/-- Evaluation of a successful `claim_payment`: with the contract not paused,
the account present, the requested amount within both the owed amount and the
treasury, and either a zero amount or a succeeding transfer, the claim
produces exactly `claimState`: the period-claims counter is updated when (and
only when) the beneficiary had not settled in the current period, and the
beneficiary record is rewritten with the purged multiplier set, the remaining
owed balance, and the current period start. -/
theorem claim_payment_ok_spec (s : OpenPayroll) (a : AccountId) (amount : Balance)
    (B : BlockNumber) (tr : Balance) (tok : Bool) (b : Beneficiary)
    (hp : s.paused_block_at = none) (hb : s.beneficiaries a = some b)
    (hle : amount ≤ amount_to_claim_in_block s a true B)
    (htr : amount ≤ tr) (htok : amount = 0 ∨ tok = true) :
    claim_payment s a amount B tr tok = .ok (claimState s a b amount B) := by
  unfold claimState purgedBeneficiary
  unfold claim_payment
  simp only [ensure_is_not_paused, is_paused, hp, Option.isSome_none, Bool.false_eq_true,
    if_false, exceptBind_ok, hb]
  rw [if_neg (by exact Nat.not_lt.mpr hle), if_neg (by exact Nat.not_lt.mpr htr)]
  have hcond : ¬ (amount > 0 ∧ tok = false) := by
    rcases htok with h0 | h1
    · subst h0; simp
    · subst h1; simp
  rw [if_neg hcond]

/-- The record stored for the claiming account in `claimState`. -/
theorem claimState_beneficiaries_self (s : OpenPayroll) (a : AccountId)
    (b : Beneficiary) (amount : Balance) (B : BlockNumber) :
    (claimState s a b amount B).beneficiaries a
      = some (purgedBeneficiary s a b amount B) := by
  unfold claimState
  simp [mapInsert]

/-- **C5 counterexample**: in `state0deact` multiplier 1 (weight 3 for
beneficiary 1) was deactivated at tick 0, so `valid_until_block = 2`.  A claim
executed at tick 3 (`≥ valid_until`) does purge the multiplier from the
beneficiary's stored set, but its payout is still `(100 + 3) * 1000 / 100 =
1030` — the expired multiplier's weight is *included*, because the payout is
computed from the pre-purge stored record — not the `100 * 1000 / 100 = 1000`
the claim predicts. -/
theorem C5_counterexample :
    (state0deact.base_multipliers 1).map BaseMultiplier.valid_until_block
        = some (some 2) ∧
    multipliersAfter (claim_payment state0deact 1 0 3 1000000 true) 1
        = some [(0, 100)] ∧
    unclaimedAfter (claim_payment state0deact 1 0 3 1000000 true) 1 = some 1030 ∧
    (1030 : Nat) = (100 + 3) * 1000 / 100 ∧ (1030 : Nat) ≠ 100 * 1000 / 100 := by
  decide

/-- **C5 (amended)**: deactivating an active multiplier at tick `T` sets
`valid_until = period_start(T) + periodicity`; a multiplier is still valid at
tick `t` exactly when `t < valid_until`, and a claim at tick `t` rewrites the
beneficiary's stored multiplier set to exactly the still-valid ones (so a
deactivated multiplier is kept while `t < valid_until` and removed once
`t ≥ valid_until`); the payout of that same claim, however, is computed from
the *pre-purge* stored record (full weight sum), so an expired multiplier's
weight still counts in the first claim after expiry and is excluded only from
subsequent claims. -/
theorem C5_deactivation_window :
    (∀ s id B m, s.base_multipliers id = some m → m.valid_until_block = none →
      deactivate_multiplier s id B = .ok { s with base_multipliers := (mapInsert
        s.base_multipliers id (deactivated m
          (get_current_period_initial_block s B + s.periodicity))) }) ∧
    (∀ s B id m v, s.base_multipliers id = some m → m.valid_until_block = some v →
      (multiplierStillValid s B id = true ↔ B < v)) ∧
    (∀ s a amount B tr tok b, s.paused_block_at = none → s.beneficiaries a = some b →
      amount ≤ amount_to_claim_in_block s a true B → amount ≤ tr →
      (amount = 0 ∨ tok = true) →
      ∃ s', claim_payment s a amount B tr tok = .ok s' ∧
        s'.beneficiaries a = some
          { account_id := a
            multipliers := b.multipliers.filter (fun p => multiplierStillValid s B p.1)
            unclaimed_payments := amount_to_claim_in_block s a true B - amount
            last_updated_period_block := get_current_period_initial_block s B }) := by
  refine ⟨?_, ?_, ?_⟩
  · intro s id B m hm hv
    unfold deactivate_multiplier
    rw [hm]
    simp [hv, deactivated]
  · intro s B id m v hm hv
    unfold multiplierStillValid
    rw [hm]
    simp [hv]
  · intro s a amount B tr tok b hp hb hle htr htok
    refine ⟨_, claim_payment_ok_spec s a amount B tr tok b hp hb hle htr htok, ?_⟩
    exact claimState_beneficiaries_self s a b amount B

/-- Witness for the amended C5 at `state0` / `state0deact`: deactivation at
tick 0 yields `valid_until = 2`; validity at tick 1 versus 3; a zero-amount
claim at tick 3 stores the purged set `[(0, 100)]` with the full 1030 payout
folded in. -/
theorem C5_deactivation_window_witness :
    deactivate_multiplier state0 1 0 = .ok { state0 with base_multipliers := (mapInsert
      state0.base_multipliers 1 (deactivated
        { name := "Performance", valid_until_block := none } 2)) } ∧
    (multiplierStillValid state0deact 1 1 = true ↔ (1 : Nat) < 2) ∧
    (multiplierStillValid state0deact 3 1 = true ↔ (3 : Nat) < 2) ∧
    (∃ s', claim_payment state0deact 1 0 3 1000000 true = .ok s' ∧
      s'.beneficiaries 1 = some
        { account_id := 1
          multipliers := bob0.multipliers.filter
            (fun p => multiplierStillValid state0deact 3 p.1)
          unclaimed_payments := amount_to_claim_in_block state0deact 1 true 3 - 0
          last_updated_period_block := get_current_period_initial_block state0deact 3 }) := by
  refine ⟨C5_deactivation_window.1 state0 1 0
      { name := "Performance", valid_until_block := none } (by decide) (by decide),
    C5_deactivation_window.2.1 state0deact 1 1
      { name := "Performance", valid_until_block := some 2 } 2 (by decide) (by decide),
    C5_deactivation_window.2.1 state0deact 3 1
      { name := "Performance", valid_until_block := some 2 } 2 (by decide) (by decide),
    C5_deactivation_window.2.2 state0deact 1 0 3 1000000 true bob0 (by decide)
      (by decide) (by decide) (by decide) (Or.inl rfl)⟩

/-- **C6 counterexample**: in `state0deact` (multiplier 1, weight 3,
deactivated with `valid_until = 2`) the read-only projection
`get_amount_to_claim` for beneficiary 1 at tick 3 returns `100 * 1000 / 100 =
1000`: it *excludes* the deactivated multiplier (any multiplier with a
`valid_until_block` set, regardless of the tick), instead of reporting the
unfiltered pre-deactivation amount `(100 + 3) * 1000 / 100 = 1030` stated by
the claim; the claim payout at the same tick is 1030, not the
currently-valid-only 1000. -/
theorem C6_counterexample :
    get_amount_to_claim state0deact 1 3 = .ok 1000 ∧
    (1000 : Nat) ≠ (100 + 3) * 1000 / 100 ∧
    unclaimedAfter (claim_payment state0deact 1 0 3 1000000 true) 1 = some 1030 := by
  refine ⟨by rfl, by decide, by decide⟩

/-- **C6 (amended)**: the read-only projection `get_amount_to_claim` computes
the per-period sum over only the multipliers that have *never* been
deactivated (no `valid_until_block` set), excluding every deactivated
multiplier even during its grace period; a claim, by contrast, pays out from
the beneficiary's full stored multiplier sum as of the claim tick (the purge
of expired multipliers only affects the stored set used by later claims). -/
theorem C6_projection_excludes_deactivated :
    (∀ s a b B, s.beneficiaries a = some b → b.multipliers ≠ [] →
      get_amount_to_claim s a B = .ok (
        if (B - b.last_updated_period_block) / s.periodicity = 0 then
          b.unclaimed_payments
        else
          (((b.multipliers.filter (fun p =>
                ((s.base_multipliers p.1).bind BaseMultiplier.valid_until_block).isNone)).map
                  Prod.snd).sum * s.base_payment / 100)
              * ((B - b.last_updated_period_block) / s.periodicity)
            + b.unclaimed_payments)) ∧
    (∀ s a amount B tr tok b, s.paused_block_at = none → s.beneficiaries a = some b →
      b.multipliers ≠ [] →
      amount ≤ amount_to_claim_in_block s a true B → amount ≤ tr →
      (amount = 0 ∨ tok = true) →
      ∃ s', claim_payment s a amount B tr tok = .ok s' ∧
        unclaimedAfter (claim_payment s a amount B tr tok) a = some
          ((if (B - b.last_updated_period_block) / s.periodicity = 0 then
              b.unclaimed_payments
            else
              ((b.multipliers.map Prod.snd).sum * s.base_payment / 100)
                  * ((B - b.last_updated_period_block) / s.periodicity)
                + b.unclaimed_payments) - amount)) := by
  constructor
  · intro s a b B hb hne
    unfold get_amount_to_claim
    rw [hb]
    simp only [Option.isNone_some, Bool.false_eq_true, if_false]
    rw [show amount_to_claim_in_block s a false B =
        amount_to_claim_in_block_of s b false B by
      unfold amount_to_claim_in_block; rw [hb]]
    simp [amount_to_claim_in_block_of, amount_to_claim_for_one_period,
      List.isEmpty_iff, hne]
  · intro s a amount B tr tok b hp hb hne hle htr htok
    refine ⟨_, claim_payment_ok_spec s a amount B tr tok b hp hb hle htr htok, ?_⟩
    rw [claim_payment_ok_spec s a amount B tr tok b hp hb hle htr htok]
    rw [← C1_amount_owed_formula s a b B hb hne]
    simp only [unclaimedAfter]
    rw [claimState_beneficiaries_self]
    simp [purgedBeneficiary]

/-- Witness for the amended C6 at `state0deact`, beneficiary 1, tick 3:
projection 1000 (deactivated weight 3 excluded), claim payout 1030 (full
stored sum). -/
theorem C6_projection_excludes_deactivated_witness :
    get_amount_to_claim state0deact 1 3 = .ok (
        if ((3 : Nat) - bob0.last_updated_period_block) / state0deact.periodicity = 0 then
          bob0.unclaimed_payments
        else
          (((bob0.multipliers.filter (fun p =>
                ((state0deact.base_multipliers p.1).bind
                  BaseMultiplier.valid_until_block).isNone)).map
                  Prod.snd).sum * state0deact.base_payment / 100)
              * (((3 : Nat) - bob0.last_updated_period_block) / state0deact.periodicity)
            + bob0.unclaimed_payments) ∧
    (∃ s', claim_payment state0deact 1 0 3 1000000 true = .ok s' ∧
      unclaimedAfter (claim_payment state0deact 1 0 3 1000000 true) 1 = some
        ((if ((3 : Nat) - bob0.last_updated_period_block) / state0deact.periodicity = 0 then
            bob0.unclaimed_payments
          else
            ((bob0.multipliers.map Prod.snd).sum * state0deact.base_payment / 100)
                * (((3 : Nat) - bob0.last_updated_period_block) / state0deact.periodicity)
              + bob0.unclaimed_payments) - 0)) :=
  ⟨C6_projection_excludes_deactivated.1 state0deact 1 bob0 3 (by decide) (by decide),
   C6_projection_excludes_deactivated.2 state0deact 1 0 3 1000000 true bob0 (by decide)
     (by decide) (by decide) (by decide) (by decide) (Or.inl rfl)⟩

/-- Fields of `claimState` that a claim never modifies. -/
theorem claimState_fields (s : OpenPayroll) (a : AccountId) (b : Beneficiary)
    (amount : Balance) (B : BlockNumber) :
    (claimState s a b amount B).beneficiaries_accounts = s.beneficiaries_accounts ∧
    (claimState s a b amount B).periodicity = s.periodicity ∧
    (claimState s a b amount B).initial_block = s.initial_block ∧
    (claimState s a b amount B).owner = s.owner ∧
    (claimState s a b amount B).paused_block_at = s.paused_block_at ∧
    (claimState s a b amount B).base_multipliers = s.base_multipliers := by
  by_cases h : b.last_updated_period_block ≠ get_current_period_initial_block s B
  · by_cases h2 : get_current_period_initial_block s B = s.claims_in_period.period
    · rw [h2] at h
      simp [claimState, update_claims_in_period, h2, h]
    · simp [claimState, update_claims_in_period, h, h2]
  · simp [claimState, h]

/-- Gate update of a claim by a stale beneficiary when the counter already
tracks the current period: the count is incremented. -/
theorem claimState_gate_incr (s : OpenPayroll) (a : AccountId) (b : Beneficiary)
    (amount : Balance) (B : BlockNumber)
    (hlu : b.last_updated_period_block ≠ get_current_period_initial_block s B)
    (hper : s.claims_in_period.period = get_current_period_initial_block s B) :
    (claimState s a b amount B).claims_in_period =
      { period := s.claims_in_period.period
        total_claims := s.claims_in_period.total_claims + 1 } := by
  have hlu2 : b.last_updated_period_block ≠ s.claims_in_period.period := by
    rw [hper]; exact hlu
  simp [claimState, update_claims_in_period, hper.symm, hlu2]

/-- Gate update of a claim by a stale beneficiary when the counter tracks an
older period: the counter resets to `(current period start, 1)`. -/
theorem claimState_gate_reset (s : OpenPayroll) (a : AccountId) (b : Beneficiary)
    (amount : Balance) (B : BlockNumber)
    (hlu : b.last_updated_period_block ≠ get_current_period_initial_block s B)
    (hper : s.claims_in_period.period ≠ get_current_period_initial_block s B) :
    (claimState s a b amount B).claims_in_period =
      { period := get_current_period_initial_block s B, total_claims := 1 } := by
  unfold claimState update_claims_in_period
  simp [hlu, Ne.symm hper]

/-- A claim leaves every other account's stored record unchanged. -/
theorem claimState_beneficiaries_ne (s : OpenPayroll) (a : AccountId)
    (b : Beneficiary) (amount : Balance) (B : BlockNumber) (x : AccountId)
    (hx : x ≠ a) :
    (claimState s a b amount B).beneficiaries x = s.beneficiaries x := by
  by_cases h : b.last_updated_period_block ≠ get_current_period_initial_block s B
  · by_cases h2 : get_current_period_initial_block s B = s.claims_in_period.period
    · rw [h2] at h
      simp [claimState, update_claims_in_period, mapInsert, h2, h, hx]
    · simp [claimState, update_claims_in_period, mapInsert, h, h2, hx]
  · simp [claimState, mapInsert, h, hx]

/-- Sequential zero-amount claims by each listed account, under the ink!
dispatch semantics (a failed claim leaves the state unchanged). -/
def claim_zero_all (B : BlockNumber) (tr : Balance) (s : OpenPayroll) :
    List AccountId → OpenPayroll
  | [] => s
  | a :: rest => claim_zero_all B tr (run s (claim_payment s a 0 B tr true)).1 rest

/-- After zero-amount claims by a duplicate-free list of stale beneficiaries,
starting from a counter already tracking the current period, the counter has
gained exactly one count per account and the parameters relevant to the gate
are untouched. -/
theorem claim_zero_all_spec (B : BlockNumber) (tr : Balance) :
    ∀ (l : List AccountId) (s : OpenPayroll),
      s.paused_block_at = none →
      (∀ a ∈ l, ∃ b, s.beneficiaries a = some b ∧
          b.last_updated_period_block ≠ get_current_period_initial_block s B) →
      l.Nodup →
      s.claims_in_period.period = get_current_period_initial_block s B →
      (claim_zero_all B tr s l).claims_in_period.period
          = get_current_period_initial_block s B ∧
      (claim_zero_all B tr s l).claims_in_period.total_claims
          = s.claims_in_period.total_claims + l.length ∧
      (claim_zero_all B tr s l).beneficiaries_accounts = s.beneficiaries_accounts ∧
      (claim_zero_all B tr s l).periodicity = s.periodicity ∧
      (claim_zero_all B tr s l).initial_block = s.initial_block ∧
      (claim_zero_all B tr s l).owner = s.owner := by
  intro l
  induction l with
  | nil =>
    intro s hp _ _ hper
    exact ⟨hper, rfl, rfl, rfl, rfl, rfl⟩
  | cons a rest ih =>
    intro s hp hstale hnd hper
    obtain ⟨b, hb, hlu⟩ := hstale a (List.mem_cons_self a rest)
    have hok := claim_payment_ok_spec s a 0 B tr true b hp hb (Nat.zero_le _)
      (Nat.zero_le _) (Or.inl rfl)
    have hrun : (run s (claim_payment s a 0 B tr true)).1 = claimState s a b 0 B := by
      rw [hok]
      rfl
    obtain ⟨hacc, hperE, hini, howner, hpau, _⟩ := claimState_fields s a b 0 B
    have hPS : get_current_period_initial_block (claimState s a b 0 B) B
        = get_current_period_initial_block s B := by
      unfold get_current_period_initial_block
      rw [hperE, hini]
    have hgate := claimState_gate_incr s a b 0 B hlu hper
    have hstale' : ∀ x ∈ rest, ∃ b', (claimState s a b 0 B).beneficiaries x = some b' ∧
        b'.last_updated_period_block
          ≠ get_current_period_initial_block (claimState s a b 0 B) B := by
      intro x hx
      obtain ⟨bx, hbx, hlux⟩ := hstale x (List.mem_cons_of_mem a hx)
      have hxa : x ≠ a := by
        rintro rfl
        exact (List.nodup_cons.mp hnd).1 hx
      refine ⟨bx, ?_, ?_⟩
      · rw [claimState_beneficiaries_ne s a b 0 B x hxa]
        exact hbx
      · rw [hPS]
        exact hlux
    have hper' : (claimState s a b 0 B).claims_in_period.period
        = get_current_period_initial_block (claimState s a b 0 B) B := by
      rw [hgate, hPS]
      exact hper
    have hp' : (claimState s a b 0 B).paused_block_at = none := by
      rw [hpau]; exact hp
    obtain ⟨r1, r2, r3, r4, r5, r6⟩ :=
      ih (claimState s a b 0 B) hp' hstale' (List.nodup_cons.mp hnd).2 hper'
    have hstep : claim_zero_all B tr s (a :: rest)
        = claim_zero_all B tr (claimState s a b 0 B) rest := by
      show claim_zero_all B tr (run s (claim_payment s a 0 B tr true)).1 rest
          = claim_zero_all B tr (claimState s a b 0 B) rest
      rw [hrun]
    rw [hstep]
    refine ⟨by rw [r1, hPS], ?_, by rw [r3, hacc], by rw [r4, hperE],
      by rw [r5, hini], by rw [r6, howner]⟩
    rw [r2, hgate]
    simp [Nat.add_assoc, Nat.add_comm 1 rest.length]

/-- Gate characterization of `update_base_payment` for an owner call with a
non-zero value. -/
theorem update_base_payment_spec (s : OpenPayroll) (caller : AccountId) (v : Balance)
    (B : BlockNumber) (ho : s.owner = caller) (hv : v ≠ 0) :
    update_base_payment s caller v B =
      if (get_current_period_initial_block s B = s.claims_in_period.period ∧
            s.claims_in_period.total_claims = s.beneficiaries_accounts.length) ∨
          get_current_period_initial_block s B = 0 then
        .ok { s with base_payment := v }
      else .error .NotAllClaimedInPeriod := by
  unfold update_base_payment ensure_owner ensure_all_claimed_in_period
  rw [if_neg (by simp [ho])]
  simp only [exceptBind_ok]
  rw [if_neg hv]
  split <;> simp

/-- Gate characterization of `update_periodicity` for an owner call with a
non-zero value. -/
theorem update_periodicity_spec (s : OpenPayroll) (caller : AccountId) (v : Nat)
    (B : BlockNumber) (ho : s.owner = caller) (hv : v ≠ 0) :
    update_periodicity s caller v B =
      if (get_current_period_initial_block s B = s.claims_in_period.period ∧
            s.claims_in_period.total_claims = s.beneficiaries_accounts.length) ∨
          get_current_period_initial_block s B = 0 then
        .ok { s with periodicity := v }
      else .error .NotAllClaimedInPeriod := by
  unfold update_periodicity ensure_owner ensure_all_claimed_in_period
  rw [if_neg (by simp [ho])]
  simp only [exceptBind_ok]
  rw [if_neg hv]
  split <;> simp

/-- The stored record of beneficiary 2 in `state0`. -/
def charlie0 : Beneficiary :=
  { account_id := 2, multipliers := [(0, 100), (1, 3)]
    unclaimed_payments := 0, last_updated_period_block := 0 }

/-- `stateE` with beneficiary 1 added at block 2 (period start 2, so the new
beneficiary's `last_updated_period_block` is already the current period). -/
def c4s1 : OpenPayroll := okState (add_beneficiary stateE 0 1 [(0, 100), (1, 3)] 2)

/-- `c4s1` after beneficiary 1 claims 0 at block 2. -/
def c4s2 : OpenPayroll := okState (claim_payment c4s1 1 0 2 1000000 true)

/-- **C4 counterexample**: starting from an empty contract constructed at
block 0 (periodicity 2), beneficiary 1 is added at block 2 — its
`last_updated_period_block` is set to the current period start 2, so its
subsequent `claim 0` at block 2 succeeds *without* touching the period-claims
counter (the increment only fires when the stored period differs).  Every
beneficiary has then called claim with amount 0 in the current period (which
is `2 ≠ 0`), yet `update_base_payment` and `update_periodicity` still fail
with `NotAllClaimedInPeriod`, contradicting the claim's final sentence. -/
theorem C4_counterexample :
    (add_beneficiary stateE 0 1 [(0, 100), (1, 3)] 2).isOk = true ∧
    (claim_payment c4s1 1 0 2 1000000 true).isOk = true ∧
    c4s2.beneficiaries_accounts = [1] ∧
    get_current_period_initial_block c4s2 2 = 2 ∧
    update_base_payment c4s2 0 900 2 = .error .NotAllClaimedInPeriod ∧
    update_periodicity c4s2 0 5 2 = .error .NotAllClaimedInPeriod := by
  refine ⟨by decide, by decide, by decide, by decide, by rfl, by rfl⟩

/-- **C4 (amended)**: called by the owner with a non-zero value,
`update_base_payment` and `update_periodicity` succeed exactly when the
current period start is 0, or the gate's stored period equals the current
period start and its count equals the current number of beneficiaries;
otherwise they fail with `NotAllClaimedInPeriod` (and, by the revert
semantics, change no state).  If there is at least one beneficiary, every
beneficiary's stored period differs from the current period start, and the
gate's stored period also differs from the current period start, then after
every beneficiary calls claim with amount 0 in the current period the same
updates succeed. -/
theorem C4_parameter_update_gate :
    (∀ s caller v B, s.owner = caller → v ≠ 0 →
      update_base_payment s caller v B =
        if (get_current_period_initial_block s B = s.claims_in_period.period ∧
              s.claims_in_period.total_claims = s.beneficiaries_accounts.length) ∨
            get_current_period_initial_block s B = 0 then
          .ok { s with base_payment := v }
        else .error .NotAllClaimedInPeriod) ∧
    (∀ s caller v B, s.owner = caller → v ≠ 0 →
      update_periodicity s caller v B =
        if (get_current_period_initial_block s B = s.claims_in_period.period ∧
              s.claims_in_period.total_claims = s.beneficiaries_accounts.length) ∨
            get_current_period_initial_block s B = 0 then
          .ok { s with periodicity := v }
        else .error .NotAllClaimedInPeriod) ∧
    (∀ s B tr v w, s.paused_block_at = none →
      s.beneficiaries_accounts ≠ [] → s.beneficiaries_accounts.Nodup →
      (∀ a ∈ s.beneficiaries_accounts, ∃ b, s.beneficiaries a = some b ∧
          b.last_updated_period_block ≠ get_current_period_initial_block s B ∧
          ∀ p ∈ b.multipliers, (s.base_multipliers p.1).isSome) →
      s.claims_in_period.period ≠ get_current_period_initial_block s B →
      v ≠ 0 → w ≠ 0 →
      (update_base_payment (claim_zero_all B tr s s.beneficiaries_accounts)
          s.owner v B).isOk = true ∧
      (update_periodicity (claim_zero_all B tr s s.beneficiaries_accounts)
          s.owner w B).isOk = true) := by
  refine ⟨update_base_payment_spec, update_periodicity_spec, ?_⟩
  intro s B tr v w hp hne hnd hben hgate hv hw
  obtain ⟨a, rest, hrest⟩ : ∃ a rest, s.beneficiaries_accounts = a :: rest := by
    cases hacc : s.beneficiaries_accounts with
    | nil => exact absurd hacc hne
    | cons a rest => exact ⟨a, rest, rfl⟩
  obtain ⟨b, hb, hlu, _⟩ := hben a (by rw [hrest]; exact List.mem_cons_self a rest)
  have hok := claim_payment_ok_spec s a 0 B tr true b hp hb (Nat.zero_le _)
    (Nat.zero_le _) (Or.inl rfl)
  have hrun : (run s (claim_payment s a 0 B tr true)).1 = claimState s a b 0 B := by
    rw [hok]
    rfl
  obtain ⟨hacc, hperE, hini, howner, hpau, _⟩ := claimState_fields s a b 0 B
  have hPS : get_current_period_initial_block (claimState s a b 0 B) B
      = get_current_period_initial_block s B := by
    unfold get_current_period_initial_block
    rw [hperE, hini]
  have hgate1 := claimState_gate_reset s a b 0 B hlu hgate
  have hnd' := hrest ▸ hnd
  have hstale' : ∀ x ∈ rest, ∃ b', (claimState s a b 0 B).beneficiaries x = some b' ∧
      b'.last_updated_period_block
        ≠ get_current_period_initial_block (claimState s a b 0 B) B := by
    intro x hx
    obtain ⟨bx, hbx, hlux, _⟩ :=
      hben x (by rw [hrest]; exact List.mem_cons_of_mem a hx)
    have hxa : x ≠ a := by
      rintro rfl
      exact (List.nodup_cons.mp hnd').1 hx
    refine ⟨bx, ?_, ?_⟩
    · rw [claimState_beneficiaries_ne s a b 0 B x hxa]
      exact hbx
    · rw [hPS]
      exact hlux
  have hper' : (claimState s a b 0 B).claims_in_period.period
      = get_current_period_initial_block (claimState s a b 0 B) B := by
    rw [hgate1, hPS]
  have hp' : (claimState s a b 0 B).paused_block_at = none := by
    rw [hpau]; exact hp
  obtain ⟨r1, r2, r3, r4, r5, r6⟩ := claim_zero_all_spec B tr rest
    (claimState s a b 0 B) hp' hstale' (List.nodup_cons.mp hnd').2 hper'
  have hstep : claim_zero_all B tr s s.beneficiaries_accounts
      = claim_zero_all B tr (claimState s a b 0 B) rest := by
    rw [hrest]
    show claim_zero_all B tr (run s (claim_payment s a 0 B tr true)).1 rest
        = claim_zero_all B tr (claimState s a b 0 B) rest
    rw [hrun]
  set sF := claim_zero_all B tr (claimState s a b 0 B) rest with hsF
  have hPSF : get_current_period_initial_block sF B
      = get_current_period_initial_block s B := by
    unfold get_current_period_initial_block
    rw [r4, r5, hperE, hini]
  have howF : sF.owner = s.owner := by rw [r6, howner]
  have hcond : (get_current_period_initial_block sF B = sF.claims_in_period.period ∧
      sF.claims_in_period.total_claims = sF.beneficiaries_accounts.length) ∨
      get_current_period_initial_block sF B = 0 := by
    left
    constructor
    · rw [hPSF, r1, hPS]
    · rw [r2, hgate1, r3, hacc, hrest]
      simp [Nat.add_comm]
  constructor
  · rw [hstep, update_base_payment_spec sF s.owner v B howF.symm.symm hv]
    · rw [if_pos hcond]
      rfl
  · rw [hstep, update_periodicity_spec sF s.owner w B howF.symm.symm hw]
    · rw [if_pos hcond]
      rfl

/-- Witness for the amended C4: at `state0`, block 3 (period start 2, gate
still `(0, 0)`, both beneficiaries stale), the direct update fails with
`NotAllClaimedInPeriod`, and after both beneficiaries claim 0 the same
updates succeed. -/
theorem C4_parameter_update_gate_witness :
    update_base_payment state0 0 900 3 = .error .NotAllClaimedInPeriod ∧
    update_periodicity state0 0 5 3 = .error .NotAllClaimedInPeriod ∧
    (update_base_payment (claim_zero_all 3 1000000 state0 state0.beneficiaries_accounts)
        state0.owner 900 3).isOk = true ∧
    (update_periodicity (claim_zero_all 3 1000000 state0 state0.beneficiaries_accounts)
        state0.owner 5 3).isOk = true := by
  have hben : ∀ a ∈ state0.beneficiaries_accounts, ∃ b,
      state0.beneficiaries a = some b ∧
      b.last_updated_period_block ≠ get_current_period_initial_block state0 3 ∧
      ∀ p ∈ b.multipliers, (state0.base_multipliers p.1).isSome := by
    intro a ha
    have hl : state0.beneficiaries_accounts = [1, 2] := by decide
    rw [hl] at ha
    have : a = 1 ∨ a = 2 := by simpa using ha
    rcases this with rfl | rfl
    · exact ⟨bob0, by decide, by decide, by decide⟩
    · exact ⟨charlie0, by decide, by decide, by decide⟩
  have htrace := C4_parameter_update_gate.2.2 state0 3 1000000 900 5 (by decide)
    (by decide) (by decide) hben (by decide) (by decide) (by decide)
  refine ⟨?_, ?_, htrace.1, htrace.2⟩
  · exact (C4_parameter_update_gate.1 state0 0 900 3 (by decide) (by decide)).trans
      (by rfl)
  · exact (C4_parameter_update_gate.2.1 state0 0 5 3 (by decide) (by decide)).trans
      (by rfl)

/-- Does account `x` hold a stored record settled in period `per`? -/
def settledP (ben : AccountId → Option Beneficiary) (per : BlockNumber)
    (x : AccountId) : Bool :=
  match ben x with
  | some b => b.last_updated_period_block == per
  | none => false

/-- Number of registered accounts whose stored record is settled in the
period tracked by the claims counter. -/
def settledCount (s : OpenPayroll) : Nat :=
  s.beneficiaries_accounts.countP (settledP s.beneficiaries s.claims_in_period.period)

/-- Pointwise-equal predicates count equally. -/
theorem countP_ext {l : List Nat} {p q : Nat → Bool} (h : ∀ x ∈ l, p x = q x) :
    l.countP p = l.countP q := by
  induction l with
  | nil => rfl
  | cons x xs ih =>
    rw [List.countP_cons, List.countP_cons, h x (List.mem_cons_self x xs),
      ih (fun y hy => h y (List.mem_cons_of_mem x hy))]

/-- Flipping one listed element's predicate from false to true strictly
increases the count. -/
theorem countP_flip {l : List Nat} {p q : Nat → Bool} {a : Nat} (ha : a ∈ l)
    (hq : ∀ x, x ≠ a → q x = p x) (hpa : p a = false) (hqa : q a = true) :
    l.countP p + 1 ≤ l.countP q := by
  induction l with
  | nil => cases ha
  | cons x xs ih =>
    have hmono : xs.countP p ≤ xs.countP q := by
      refine List.countP_mono_left (fun y _ hpy => ?_)
      by_cases hy : y = a
      · subst hy
        rw [hpa] at hpy
        cases hpy
      · rw [hq y hy]
        exact hpy
    rw [List.countP_cons, List.countP_cons]
    by_cases hx : x = a
    · subst hx
      rw [hpa, hqa]
      simpa using Nat.add_le_add_right hmono 1
    · rw [hq x hx]
      rcases List.mem_cons.mp ha with h' | h'
      · exact absurd h'.symm hx
      · have := ih h'
        omega

/-- A listed element whose predicate fails keeps the count below the
length. -/
theorem countP_lt_length {l : List Nat} {p : Nat → Bool} {a : Nat}
    (ha : a ∈ l) (hpa : p a = false) : l.countP p < l.length := by
  refine lt_of_le_of_ne (List.countP_le_length p) (fun hEq => ?_)
  have := List.countP_eq_length.mp hEq a ha
  rw [hpa] at this
  cases this

/-- A claim by a beneficiary already settled in the current period leaves the
claims counter untouched. -/
theorem claimState_gate_same (s : OpenPayroll) (a : AccountId) (b : Beneficiary)
    (amount : Balance) (B : BlockNumber)
    (hlu : b.last_updated_period_block = get_current_period_initial_block s B) :
    (claimState s a b amount B).claims_in_period = s.claims_in_period := by
  simp [claimState, hlu]

/-- `claim_payment` with the contract unpaused and the account present is
the three-way check followed by the `claimState` write. -/
theorem claim_payment_eval (s : OpenPayroll) (a : AccountId) (amount : Balance)
    (B : BlockNumber) (tr : Balance) (tok : Bool) (b : Beneficiary)
    (hp : s.paused_block_at = none) (hb : s.beneficiaries a = some b) :
    claim_payment s a amount B tr tok =
      if amount > amount_to_claim_in_block s a true B then
        .error .ClaimedAmountIsBiggerThanAvailable
      else if amount > tr then .error .NotEnoughBalanceInTreasury
      else if amount > 0 ∧ tok = false then .error .TransferFailed
      else .ok (claimState s a b amount B) := by
  unfold claim_payment claimState purgedBeneficiary
  simp only [ensure_is_not_paused, is_paused, hp, Option.isSome_none, Bool.false_eq_true,
    if_false, exceptBind_ok, hb]

/-- Inversion of a successful claim: the account existed and the result is
exactly `claimState`. -/
theorem claim_payment_ok_inv {s : OpenPayroll} {a : AccountId} {amount : Balance}
    {B : BlockNumber} {tr : Balance} {tok : Bool} {s' : OpenPayroll}
    (h : claim_payment s a amount B tr tok = .ok s') :
    ∃ b, s.beneficiaries a = some b ∧ s' = claimState s a b amount B := by
  by_cases hp : s.paused_block_at = none
  · cases hb : s.beneficiaries a with
    | none =>
      exfalso
      unfold claim_payment ensure_is_not_paused is_paused at h
      rw [hp, hb] at h
      simp at h
    | some b =>
      rw [claim_payment_eval s a amount B tr tok b hp hb] at h
      split at h
      · cases h
      · split at h
        · cases h
        · split at h
          · cases h
          · exact ⟨b, rfl, (Except.ok.inj h).symm⟩
  · exfalso
    unfold claim_payment ensure_is_not_paused is_paused at h
    rcases hpb : s.paused_block_at with _ | x
    · exact hp hpb
    · rw [hpb] at h
      simp at h

/-- `state0` after beneficiary 1 claims 0 at block 2 (counter resets to
`(2, 1)`). -/
def c8s1 : OpenPayroll := okState (claim_payment state0 1 0 2 1000000 true)

/-- ... then beneficiary 2 claims 0 at block 2 (counter `(2, 2)`). -/
def c8s2 : OpenPayroll := okState (claim_payment c8s1 2 0 2 1000000 true)

/-- ... then the owner removes beneficiary 1. -/
def c8s3 : OpenPayroll := okState (remove_beneficiary c8s2 0 1)

/-- The record of beneficiary 1 in `c8s1` (settled at period start 2 with the
full owed amount folded into its unclaimed balance). -/
def bob1 : Beneficiary :=
  { account_id := 1, multipliers := [(0, 100), (1, 3)]
    unclaimed_payments := 1030, last_updated_period_block := 2 }

/-- `c8s1` after beneficiary 1 claims again (amount 5) in the same period:
the counter must not increment a second time. -/
def c8s1b : OpenPayroll := okState (claim_payment c8s1 1 5 2 1000000 true)

/-- **C8 counterexample**: a reachable state violating the invariant.  From
`state0`, both beneficiaries claim 0 at block 2 (counter `(2, 2)`), then the
owner removes beneficiary 1.  `remove_beneficiary` does not adjust the
counter, so the resulting state has `total_claims = 2` but only one
registered beneficiary. -/
theorem C8_counterexample :
    (claim_payment state0 1 0 2 1000000 true).isOk = true ∧
    (claim_payment c8s1 2 0 2 1000000 true).isOk = true ∧
    (remove_beneficiary c8s2 0 1).isOk = true ∧
    c8s3.claims_in_period.total_claims = 2 ∧
    c8s3.beneficiaries_accounts.length = 1 ∧
    ¬ c8s3.claims_in_period.total_claims ≤ c8s3.beneficiaries_accounts.length := by
  decide

/-- **C8 (amended)**: `claim_payment` increments the period-claims count at
most once per beneficiary per period — a claim by a beneficiary whose stored
period already equals the current period start leaves the counter untouched —
and any successful claim by a registered account preserves the invariant
"count ≤ number of registered beneficiaries" (together with the auxiliary
bound "count ≤ number of accounts settled in the counter's period" that makes
it inductive).  `remove_beneficiary`, however, never adjusts the counter, so
removing a beneficiary who claimed can leave the count exceeding the number
of currently-registered beneficiaries. -/
theorem C8_claims_counter :
    (∀ s a amount B tr tok s' b, s.beneficiaries a = some b →
      b.last_updated_period_block = get_current_period_initial_block s B →
      claim_payment s a amount B tr tok = .ok s' →
      s'.claims_in_period = s.claims_in_period) ∧
    (∀ s a amount B tr tok s', a ∈ s.beneficiaries_accounts →
      s.claims_in_period.total_claims ≤ settledCount s →
      claim_payment s a amount B tr tok = .ok s' →
      s'.claims_in_period.total_claims ≤ s'.beneficiaries_accounts.length ∧
      s'.claims_in_period.total_claims ≤ settledCount s') ∧
    (∀ s caller a s', remove_beneficiary s caller a = .ok s' →
      s'.claims_in_period = s.claims_in_period) := by
  refine ⟨?_, ?_, ?_⟩
  · intro s a amount B tr tok s' b hb hlu h
    obtain ⟨b', hb', rfl⟩ := claim_payment_ok_inv h
    have hbb : b' = b := Option.some.inj (hb'.symm.trans hb)
    subst hbb
    exact claimState_gate_same s a b' amount B hlu
  · intro s a amount B tr tok s' ha hcnt h
    obtain ⟨b, hb, rfl⟩ := claim_payment_ok_inv h
    obtain ⟨hacc, _, _, _, _, _⟩ := claimState_fields s a b amount B
    by_cases hlu : b.last_updated_period_block = get_current_period_initial_block s B
    · have hg := claimState_gate_same s a b amount B hlu
      have hsc : settledCount (claimState s a b amount B) = settledCount s := by
        unfold settledCount
        rw [hacc, hg]
        refine countP_ext (fun x _ => ?_)
        by_cases hxa : x = a
        · subst hxa
          unfold settledP
          rw [claimState_beneficiaries_self, hb]
          simp [purgedBeneficiary, hlu]
        · unfold settledP
          rw [claimState_beneficiaries_ne s a b amount B x hxa]
      rw [hg, hsc, hacc]
      refine ⟨le_trans hcnt ?_, hcnt⟩
      unfold settledCount
      exact List.countP_le_length _
    · by_cases hper : s.claims_in_period.period = get_current_period_initial_block s B
      · have hg := claimState_gate_incr s a b amount B hlu hper
        have hpa : settledP s.beneficiaries s.claims_in_period.period a = false := by
          unfold settledP
          rw [hb]
          simp only [beq_eq_false_iff_ne, ne_eq]
          rw [hper]
          exact hlu
        have hqa : settledP (claimState s a b amount B).beneficiaries
            s.claims_in_period.period a = true := by
          unfold settledP
          rw [claimState_beneficiaries_self]
          simp [purgedBeneficiary, hper]
        have hq : ∀ x, x ≠ a →
            settledP (claimState s a b amount B).beneficiaries
              s.claims_in_period.period x
            = settledP s.beneficiaries s.claims_in_period.period x := by
          intro x hxa
          unfold settledP
          rw [claimState_beneficiaries_ne s a b amount B x hxa]
        have hflip := countP_flip ha hq hpa hqa
        have hlt := countP_lt_length ha hpa
        constructor
        · rw [hg, hacc]
          show s.claims_in_period.total_claims + 1 ≤ s.beneficiaries_accounts.length
          have hlt2 : s.claims_in_period.total_claims <
              s.beneficiaries_accounts.length :=
            lt_of_le_of_lt hcnt hlt
          omega
        · rw [hg]
          unfold settledCount
          rw [hacc, hg]
          show s.claims_in_period.total_claims + 1 ≤ s.beneficiaries_accounts.countP
            (settledP (claimState s a b amount B).beneficiaries
              s.claims_in_period.period)
          calc s.claims_in_period.total_claims + 1
              ≤ s.beneficiaries_accounts.countP
                  (settledP s.beneficiaries s.claims_in_period.period) + 1 :=
                Nat.add_le_add_right hcnt 1
            _ ≤ s.beneficiaries_accounts.countP
                  (settledP (claimState s a b amount B).beneficiaries
                    s.claims_in_period.period) := hflip
      · have hg := claimState_gate_reset s a b amount B hlu hper
        constructor
        · rw [hg, hacc]
          show 1 ≤ s.beneficiaries_accounts.length
          simpa using List.length_pos_of_mem ha
        · rw [hg]
          unfold settledCount
          rw [hacc, hg]
          show 1 ≤ s.beneficiaries_accounts.countP
            (settledP (claimState s a b amount B).beneficiaries
              (get_current_period_initial_block s B))
          have hqa : settledP (claimState s a b amount B).beneficiaries
              (get_current_period_initial_block s B) a = true := by
            unfold settledP
            rw [claimState_beneficiaries_self]
            simp [purgedBeneficiary]
          simpa using List.countP_pos_iff.mpr ⟨a, ha, hqa⟩
  · intro s caller a s' h
    unfold remove_beneficiary ensure_owner at h
    split at h
    · cases h
    · simp only [exceptBind_ok] at h
      split at h
      · cases h
      · rw [← Except.ok.inj h]

/-- Witness for the amended C8: a second claim in the same period (`c8s1b`)
leaves the counter at `(2, 1)`; the first claim from `state0` preserves both
bounds; removing beneficiary 1 from `c8s2` leaves the counter untouched. -/
theorem C8_claims_counter_witness :
    c8s1b.claims_in_period = c8s1.claims_in_period ∧
    (c8s1.claims_in_period.total_claims ≤ c8s1.beneficiaries_accounts.length ∧
      c8s1.claims_in_period.total_claims ≤ settledCount c8s1) ∧
    c8s3.claims_in_period = c8s2.claims_in_period :=
  ⟨C8_claims_counter.1 c8s1 1 5 2 1000000 true c8s1b bob1 (by decide) (by decide)
      (by rfl),
   C8_claims_counter.2.1 state0 1 0 2 1000000 true c8s1 (by decide) (by decide)
      (by rfl),
   C8_claims_counter.2.2 c8s2 0 1 c8s3 (by rfl)⟩

/-- **C2**: a claim with `requested_amount > 0` whose external transfer fails
returns `TransferFailed`, and — because an ink! message that returns `Err`
reverts every storage write (`run` makes this rollback explicit) — the
beneficiary's stored record and the period-claims counter are exactly the
state the caller started from. -/
theorem C2_transfer_failure_atomic (s : OpenPayroll) (a : AccountId) (amount : Balance)
    (block : BlockNumber) (treasury : Balance) (b : Beneficiary)
    (hp : s.paused_block_at = none) (hb : s.beneficiaries a = some b)
    (hle : amount ≤ amount_to_claim_in_block s a true block)
    (htr : amount ≤ treasury) (hpos : 0 < amount) :
    claim_payment s a amount block treasury false = .error .TransferFailed ∧
    run s (claim_payment s a amount block treasury false)
      = (s, .error .TransferFailed) := by
  have h1 : claim_payment s a amount block treasury false = .error .TransferFailed := by
    unfold claim_payment
    simp [ensure_is_not_paused, is_paused, hp, hb, Nat.not_lt.mpr hle,
      Nat.not_lt.mpr htr, hpos]
  exact ⟨h1, by rw [h1]; rfl⟩

/-- Witness for C2 at `state0`: beneficiary 1, requested amount 1030 (the full
amount owed at block 3), failing transfer. -/
theorem C2_transfer_failure_atomic_witness :
    claim_payment state0 1 1030 3 1000000 false = .error .TransferFailed ∧
    run state0 (claim_payment state0 1 1030 3 1000000 false)
      = (state0, .error .TransferFailed) :=
  C2_transfer_failure_atomic state0 1 1030 3 1000000 bob0 (by decide) (by decide)
    (by decide) (by decide) (by decide)

/-! ## Container synchronization (C10) -/

/-- `hasAdjDup` is the complement of adjacent distinctness. -/
theorem hasAdjDup_eq_false_iff : ∀ {l : List Nat},
    hasAdjDup l = false ↔ l.Chain' (· ≠ ·)
  | [] => by simp [hasAdjDup]
  | [_] => by simp [hasAdjDup]
  | a :: b :: rest => by
    rw [hasAdjDup, Bool.or_eq_false_iff, List.chain'_cons,
      hasAdjDup_eq_false_iff (l := b :: rest)]
    simp

/-- Chains in `≤` and `≠` combine to a strict chain. -/
theorem chain'_lt_of_le_ne : ∀ {l : List Nat},
    l.Chain' (· ≤ ·) → l.Chain' (· ≠ ·) → l.Chain' (· < ·)
  | [], _, _ => List.chain'_nil
  | [_], _, _ => by simp
  | _ :: b :: r, h1, h2 => by
    rw [List.chain'_cons] at h1 h2 ⊢
    exact ⟨lt_of_le_of_ne h1.1 h2.1, chain'_lt_of_le_ne h1.2 h2.2⟩

/-- Soundness of the sort-then-scan duplicate check: if
`check_no_duplicate_beneficiaries` succeeds, the list has no duplicates. -/
theorem check_no_duplicate_sound {l : List AccountId}
    (h : check_no_duplicate_beneficiaries l = .ok ()) : l.Nodup := by
  by_cases hd : hasAdjDup (l.insertionSort (· ≤ ·)) = true
  · exfalso
    unfold check_no_duplicate_beneficiaries at h
    simp [hd] at h
  · have hfalse : hasAdjDup (l.insertionSort (· ≤ ·)) = false := by
      simpa using hd
    have hch := hasAdjDup_eq_false_iff.mp hfalse
    have hsorted : List.Sorted (· ≤ ·) (l.insertionSort (· ≤ ·)) :=
      List.sorted_insertionSort _ l
    have hlt := chain'_lt_of_le_ne hsorted.chain' hch
    have hnd : (l.insertionSort (· ≤ ·)).Nodup :=
      List.Pairwise.imp (fun hab => Nat.ne_of_lt hab)
        (List.chain'_iff_pairwise.mp hlt)
    exact (List.perm_insertionSort _ l).nodup_iff.mp hnd

/-- `mapInsert` lookup presence. -/
theorem mapInsert_isSome {V : Type} (m : Nat → Option V) (k : Nat) (v : V) (x : Nat) :
    ((mapInsert m k v) x).isSome = if x = k then true else (m x).isSome := by
  unfold mapInsert
  split <;> simp

/-- `mapRemove` lookup presence. -/
theorem mapRemove_isSome {V : Type} (m : Nat → Option V) (k : Nat) (x : Nat) :
    ((mapRemove m k) x).isSome = if x = k then false else (m x).isSome := by
  unfold mapRemove
  split <;> simp

/-- The beneficiary-construction loop: the accounts vector collects exactly
the processed account ids (in order) and the map holds exactly the processed
accounts on top of the initial map. -/
theorem buildInitialBeneficiaries_inv (blk : BlockNumber) (n : Nat) :
    ∀ (l : List InitialBeneficiary) (m0 : AccountId → Option Beneficiary)
      (acc0 : List AccountId) (m : AccountId → Option Beneficiary)
      (accts : List AccountId),
      buildInitialBeneficiaries blk n l m0 acc0 = .ok (m, accts) →
      accts = acc0 ++ l.map (·.account_id) ∧
      ∀ x, (m x).isSome = true ↔
        ((m0 x).isSome = true ∨ x ∈ l.map (·.account_id)) := by
  intro l
  induction l with
  | nil =>
    intro m0 acc0 m accts h
    unfold buildInitialBeneficiaries at h
    obtain ⟨h1, h2⟩ := Prod.mk.injEq .. ▸ Except.ok.inj h
    constructor
    · rw [← h2]
      simp
    · intro x
      rw [← h1]
      simp
  | cons bd rest ih =>
    intro m0 acc0 m accts h
    unfold buildInitialBeneficiaries at h
    split at h
    · cases h
    · split at h
      · cases h
      · obtain ⟨ha, hm⟩ := ih _ _ _ _ h
        constructor
        · rw [ha]
          simp
        · intro x
          rw [hm x, mapInsert_isSome]
          by_cases hx : x = bd.account_id <;> simp [hx]

/-- The synchronized-containers invariant of C10: the beneficiaries map's
keys are exactly the accounts vector (no duplicates), and the base-multiplier
map's keys are exactly the multipliers list (no duplicates). -/
def SyncInv (s : OpenPayroll) : Prop :=
  (∀ a, a ∈ s.beneficiaries_accounts ↔ (s.beneficiaries a).isSome = true) ∧
  s.beneficiaries_accounts.Nodup ∧
  (∀ id, id ∈ s.multipliers_list ↔ (s.base_multipliers id).isSome = true) ∧
  s.multipliers_list.Nodup

/-- `SyncInv` strengthened with the id-monotonicity bound needed to make it
inductive through `add_base_multiplier`. -/
def FullInv (s : OpenPayroll) : Prop :=
  SyncInv s ∧ ∀ id ∈ s.multipliers_list, id < s.next_multiplier_id

/-- The constructor establishes the invariant. -/
theorem new_FullInv {p : Nat} {bp : Balance} {names : List String}
    {bens : List InitialBeneficiary} {B : BlockNumber} {caller : AccountId}
    {s : OpenPayroll} (h : new p bp names bens B caller = .ok s) : FullInv s := by
  unfold new at h
  split at h
  · cases h
  · cases hc : check_no_duplicate_beneficiaries (bens.map (·.account_id)) with
    | error e =>
      rw [hc] at h
      cases h
    | ok u =>
      cases u
      rw [hc] at h
      simp only [exceptBind_ok] at h
      split at h
      · cases h
      · split at h
        · cases h
        · cases hbb : buildInitialBeneficiaries B names.length bens
              (fun _ => none) [] with
          | error e =>
            rw [hbb] at h
            cases h
          | ok pr =>
            obtain ⟨m, accts⟩ := pr
            rw [hbb] at h
            obtain ⟨ha, hm⟩ := buildInitialBeneficiaries_inv B names.length bens
              (fun _ => none) [] m accts hbb
            have hs := (Except.ok.inj h).symm
            subst hs
            refine ⟨⟨?_, ?_, ?_, List.nodup_range names.length⟩, ?_⟩
            · intro x
              show x ∈ accts ↔ (m x).isSome = true
              rw [hm x, ha]
              simp
            · show accts.Nodup
              rw [ha]
              simpa using check_no_duplicate_sound hc
            · intro id
              show id ∈ List.range names.length ↔
                ((names.get? id).map BaseMultiplier.mk_new).isSome = true
              rw [List.mem_range]
              constructor
              · intro hlt
                cases hg : names.get? id with
                | none => exact absurd (List.get?_eq_none.mp hg) (Nat.not_le.mpr hlt)
                | some v => rfl
              · intro hsome
                by_contra hge
                rw [List.get?_eq_none.mpr (Nat.not_lt.mp hge)] at hsome
                simp at hsome
            · intro id hid
              show id < names.length
              exact List.mem_range.mp hid

/-- Multiplier list and id counter are untouched by a claim. -/
theorem claimState_fields2 (s : OpenPayroll) (a : AccountId) (b : Beneficiary)
    (amount : Balance) (B : BlockNumber) :
    (claimState s a b amount B).multipliers_list = s.multipliers_list ∧
    (claimState s a b amount B).next_multiplier_id = s.next_multiplier_id := by
  by_cases h : b.last_updated_period_block ≠ get_current_period_initial_block s B
  · by_cases h2 : get_current_period_initial_block s B = s.claims_in_period.period
    · rw [h2] at h
      simp [claimState, update_claims_in_period, h2, h]
    · simp [claimState, update_claims_in_period, h, h2]
  · simp [claimState, h]

/-- Inserting a value at a key already present keeps the key set. -/
theorem syncIff_insert_existing {m : Nat → Option Beneficiary} {l : List Nat}
    {k : Nat} {v : Beneficiary} (hm : (m k).isSome = true)
    (hiff : ∀ x, x ∈ l ↔ (m x).isSome = true) :
    ∀ x, x ∈ l ↔ ((mapInsert m k v) x).isSome = true := by
  intro x
  rw [mapInsert_isSome]
  by_cases hx : x = k
  · subst hx
    rw [if_pos rfl]
    exact ⟨fun _ => rfl, fun _ => (hiff x).mpr hm⟩
  · rw [if_neg hx]
    exact hiff x

/-- Inserting a value at a key already present keeps the key set
(multiplier version). -/
theorem syncIff_insert_existing_mult {m : Nat → Option BaseMultiplier} {l : List Nat}
    {k : Nat} {v : BaseMultiplier} (hm : (m k).isSome = true)
    (hiff : ∀ x, x ∈ l ↔ (m x).isSome = true) :
    ∀ x, x ∈ l ↔ ((mapInsert m k v) x).isSome = true := by
  intro x
  rw [mapInsert_isSome]
  by_cases hx : x = k
  · subst hx
    rw [if_pos rfl]
    exact ⟨fun _ => rfl, fun _ => (hiff x).mpr hm⟩
  · rw [if_neg hx]
    exact hiff x

/-- A successful claim preserves the strengthened invariant. -/
theorem FullInv_claim {s s' : OpenPayroll} {a : AccountId} {amount : Balance}
    {B : BlockNumber} {tr : Balance} {tok : Bool}
    (h : claim_payment s a amount B tr tok = .ok s') (hI : FullInv s) : FullInv s' := by
  obtain ⟨b, hb, rfl⟩ := claim_payment_ok_inv h
  obtain ⟨⟨hiff, hnd, hmiff, hmnd⟩, hbound⟩ := hI
  obtain ⟨hacc, _, _, _, _, hbm⟩ := claimState_fields s a b amount B
  obtain ⟨hml, hnext⟩ := claimState_fields2 s a b amount B
  refine ⟨⟨?_, ?_, ?_, ?_⟩, ?_⟩
  · intro x
    rw [hacc]
    by_cases hxa : x = a
    · subst hxa
      rw [claimState_beneficiaries_self]
      exact ⟨fun _ => rfl, fun _ => (hiff x).mpr (by rw [hb]; rfl)⟩
    · rw [claimState_beneficiaries_ne s a b amount B x hxa]
      exact hiff x
  · rw [hacc]
    exact hnd
  · intro i
    rw [hml, hbm]
    exact hmiff i
  · rw [hml]
    exact hmnd
  · intro i hi
    rw [hml] at hi
    rw [hnext]
    exact hbound i hi

/-- A successful deactivation preserves the strengthened invariant. -/
theorem FullInv_deactivate {s s' : OpenPayroll} {id : MultiplierId} {B : BlockNumber}
    (h : deactivate_multiplier s id B = .ok s') (hI : FullInv s) : FullInv s' := by
  unfold deactivate_multiplier at h
  cases hm : s.base_multipliers id with
  | none =>
    rw [hm] at h
    cases h
  | some mlt =>
    rw [hm] at h
    dsimp only at h
    split at h
    · cases h
    · rw [← Except.ok.inj h]
      obtain ⟨⟨hiff, hnd, hmiff, hmnd⟩, hbound⟩ := hI
      exact ⟨⟨hiff, hnd,
        syncIff_insert_existing_mult (by rw [hm]; rfl) hmiff, hmnd⟩, hbound⟩

/-- A successful deletion preserves the strengthened invariant. -/
theorem FullInv_delete {s s' : OpenPayroll} {id : MultiplierId} {B : BlockNumber}
    (h : delete_unused_multiplier s id B = .ok s') (hI : FullInv s) : FullInv s' := by
  unfold delete_unused_multiplier at h
  cases hm : s.base_multipliers id with
  | none =>
    rw [hm] at h
    cases h
  | some mlt =>
    rw [hm] at h
    dsimp only at h
    cases hv : mlt.valid_until_block with
    | none =>
      rw [hv] at h
      simp at h
    | some vu =>
      rw [hv] at h
      dsimp only at h
      split at h
      · cases h
      · simp only [ensure_all_claimed_in_period] at h
        split at h
        · simp only [exceptBind_ok] at h
          rw [← Except.ok.inj h]
          obtain ⟨⟨hiff, hnd, hmiff, hmnd⟩, hbound⟩ := hI
          refine ⟨⟨hiff, hnd, ?_, hmnd.filter _⟩, ?_⟩
          · intro x
            show x ∈ s.multipliers_list.filter (fun y => y ≠ id) ↔
              ((mapRemove s.base_multipliers id) x).isSome = true
            rw [mapRemove_isSome, List.mem_filter]
            by_cases hx : x = id
            · subst hx
              simp
            · simp only [hx, if_false, decide_not]
              simp [hx]
              exact hmiff x
          · intro x hx
            have hx2 : x ∈ s.multipliers_list :=
              (List.mem_filter.mp hx).1
            exact hbound x hx2
        · cases h

/-- Adding a fresh multiplier preserves the strengthened invariant. -/
theorem FullInv_addMult {s s' : OpenPayroll} {caller : AccountId} {name : String}
    (h : add_base_multiplier s caller name = .ok s') (hI : FullInv s) : FullInv s' := by
  unfold add_base_multiplier ensure_owner at h
  split at h
  · cases h
  · simp only [exceptBind_ok] at h
    split at h
    · cases h
    · split at h
      · cases h
      · rw [← Except.ok.inj h]
        obtain ⟨⟨hiff, hnd, hmiff, hmnd⟩, hbound⟩ := hI
        have hnotin : s.next_multiplier_id ∉ s.multipliers_list := fun hmem =>
          lt_irrefl _ (hbound _ hmem)
        refine ⟨⟨hiff, hnd, ?_, ?_⟩, ?_⟩
        · intro x
          show x ∈ s.multipliers_list ++ [s.next_multiplier_id] ↔
            ((mapInsert s.base_multipliers s.next_multiplier_id
              (BaseMultiplier.mk_new name)) x).isSome = true
          rw [mapInsert_isSome, List.mem_append]
          by_cases hx : x = s.next_multiplier_id
          · subst hx
            simp
          · simp only [List.mem_singleton, hx, or_false, if_neg hx]
            exact hmiff x
        · show (s.multipliers_list ++ [s.next_multiplier_id]).Nodup
          simp [List.nodup_append, hmnd, hnotin]
        · intro x hx
          show x < s.next_multiplier_id + 1
          rcases List.mem_append.mp hx with hx1 | hx1
          · exact Nat.lt_succ_of_lt (hbound x hx1)
          · rw [List.mem_singleton.mp hx1]
            exact Nat.lt_succ_self _

/-- Adding a fresh beneficiary preserves the strengthened invariant. -/
theorem FullInv_addBen {s s' : OpenPayroll} {caller a : AccountId}
    {m : List (MultiplierId × Multiplier)} {B : BlockNumber}
    (h : add_beneficiary s caller a m B = .ok s') (hI : FullInv s) : FullInv s' := by
  unfold add_beneficiary at h
  cases hc : check_beneficiary_to_add s caller a m with
  | error e =>
    rw [hc] at h
    cases h
  | ok u =>
    cases u
    rw [hc] at h
    simp only [exceptBind_ok] at h
    have hnotin : (s.beneficiaries a).isSome = false := by
      unfold check_beneficiary_to_add ensure_owner at hc
      split at hc
      · cases hc
      · simp only [exceptBind_ok] at hc
        split at hc
        · cases hc
        · rename_i hcond
          simpa using hcond
    rw [← Except.ok.inj h]
    obtain ⟨⟨hiff, hnd, hmiff, hmnd⟩, hbound⟩ := hI
    have hanot : a ∉ s.beneficiaries_accounts := fun hmem => by
      have h2 := (hiff a).mp hmem
      rw [hnotin] at h2
      cases h2
    refine ⟨⟨?_, ?_, hmiff, hmnd⟩, hbound⟩
    · intro x
      show x ∈ s.beneficiaries_accounts ++ [a] ↔
        ((mapInsert s.beneficiaries a
          { account_id := a, multipliers := vec_to_btreemap m, unclaimed_payments := 0,
            last_updated_period_block := get_current_period_initial_block s B })
          x).isSome = true
      rw [mapInsert_isSome, List.mem_append]
      by_cases hx : x = a
      · subst hx
        simp
      · simp only [List.mem_singleton, hx, or_false, if_neg hx]
        exact hiff x
    · show (s.beneficiaries_accounts ++ [a]).Nodup
      simp [List.nodup_append, hnd, hanot]

/-- Updating an existing beneficiary preserves the strengthened invariant. -/
theorem FullInv_updateBen {s s' : OpenPayroll} {caller a : AccountId}
    {m : List (MultiplierId × Multiplier)} {B : BlockNumber}
    (h : update_beneficiary s caller a m B = .ok s') (hI : FullInv s) : FullInv s' := by
  unfold update_beneficiary ensure_owner at h
  split at h
  · cases h
  · simp only [exceptBind_ok] at h
    split at h
    · cases h
    · rename_i hnone
      have hsome : (s.beneficiaries a).isSome = true := by
        cases hopt : s.beneficiaries a with
        | none => exact absurd (by rw [hopt]; rfl) hnone
        | some b => rfl
      cases hv : check_multipliers_are_valid s m with
      | error e =>
        rw [hv] at h
        cases h
      | ok u =>
        cases u
        rw [hv] at h
        simp only [exceptBind_ok] at h
        cases hd : check_no_duplicate_multipliers m with
        | error e =>
          rw [hd] at h
          cases h
        | ok u2 =>
          cases u2
          rw [hd] at h
          simp only [exceptBind_ok] at h
          rw [← Except.ok.inj h]
          obtain ⟨⟨hiff, hnd, hmiff, hmnd⟩, hbound⟩ := hI
          exact ⟨⟨syncIff_insert_existing hsome hiff, hnd, hmiff, hmnd⟩, hbound⟩

/-- Removing a beneficiary preserves the strengthened invariant. -/
theorem FullInv_removeBen {s s' : OpenPayroll} {caller a : AccountId}
    (h : remove_beneficiary s caller a = .ok s') (hI : FullInv s) : FullInv s' := by
  unfold remove_beneficiary ensure_owner at h
  split at h
  · cases h
  · simp only [exceptBind_ok] at h
    split at h
    · cases h
    · rw [← Except.ok.inj h]
      obtain ⟨⟨hiff, hnd, hmiff, hmnd⟩, hbound⟩ := hI
      refine ⟨⟨?_, hnd.filter _, hmiff, hmnd⟩, hbound⟩
      intro x
      show x ∈ s.beneficiaries_accounts.filter (fun y => y ≠ a) ↔
        ((mapRemove s.beneficiaries a) x).isSome = true
      rw [mapRemove_isSome, List.mem_filter]
      by_cases hx : x = a
      · subst hx
        simp
      · simp only [hx, if_false, decide_not]
        simp [hx]
        exact hiff x

/-- Updating the base payment preserves the strengthened invariant. -/
theorem FullInv_updateBase {s s' : OpenPayroll} {caller : AccountId} {v : Balance}
    {B : BlockNumber} (h : update_base_payment s caller v B = .ok s')
    (hI : FullInv s) : FullInv s' := by
  unfold update_base_payment ensure_owner at h
  split at h
  · cases h
  · simp only [exceptBind_ok] at h
    split at h
    · cases h
    · simp only [ensure_all_claimed_in_period] at h
      split at h
      · simp only [exceptBind_ok] at h
        rw [← Except.ok.inj h]
        exact hI
      · cases h

/-- Updating the periodicity preserves the strengthened invariant. -/
theorem FullInv_updatePeriod {s s' : OpenPayroll} {caller : AccountId} {v : Nat}
    {B : BlockNumber} (h : update_periodicity s caller v B = .ok s')
    (hI : FullInv s) : FullInv s' := by
  unfold update_periodicity ensure_owner at h
  split at h
  · cases h
  · simp only [exceptBind_ok] at h
    split at h
    · cases h
    · simp only [ensure_all_claimed_in_period] at h
      split at h
      · simp only [exceptBind_ok] at h
        rw [← Except.ok.inj h]
        exact hI
      · cases h

/-- Ownership proposal preserves the strengthened invariant. -/
theorem FullInv_propose {s s' : OpenPayroll} {caller n : AccountId}
    (h : propose_transfer_ownership s caller n = .ok s') (hI : FullInv s) :
    FullInv s' := by
  unfold propose_transfer_ownership ensure_owner at h
  split at h
  · cases h
  · simp only [exceptBind_ok] at h
    rw [← Except.ok.inj h]
    exact hI

/-- Ownership acceptance preserves the strengthened invariant. -/
theorem FullInv_accept {s s' : OpenPayroll} {caller : AccountId}
    (h : accept_ownership s caller = .ok s') (hI : FullInv s) : FullInv s' := by
  unfold accept_ownership at h
  split at h
  · rw [← Except.ok.inj h]
    exact hI
  · cases h

/-- Pausing preserves the strengthened invariant. -/
theorem FullInv_pause {s s' : OpenPayroll} {caller : AccountId} {B : BlockNumber}
    (h : pause s caller B = .ok s') (hI : FullInv s) : FullInv s' := by
  unfold pause ensure_owner at h
  split at h
  · cases h
  · simp only [exceptBind_ok] at h
    split at h
    · rw [← Except.ok.inj h]
      exact hI
    · rw [← Except.ok.inj h]
      exact hI

/-- Resuming preserves the strengthened invariant. -/
theorem FullInv_resume {s s' : OpenPayroll} {caller : AccountId}
    (h : resume s caller = .ok s') (hI : FullInv s) : FullInv s' := by
  unfold resume ensure_owner at h
  split at h
  · cases h
  · simp only [exceptBind_ok] at h
    split at h
    · rw [← Except.ok.inj h]
      exact hI
    · rw [← Except.ok.inj h]
      exact hI

/-- One invocation of any contract message, with its environment inputs. -/
inductive Op where
  | opClaim (a : AccountId) (amount : Balance) (B : BlockNumber) (tr : Balance)
      (tok : Bool)
  | opDeactivate (id : MultiplierId) (B : BlockNumber)
  | opDelete (id : MultiplierId) (B : BlockNumber)
  | opPropose (caller n : AccountId)
  | opAccept (caller : AccountId)
  | opAddBen (caller a : AccountId) (m : List (MultiplierId × Multiplier))
      (B : BlockNumber)
  | opUpdateBen (caller a : AccountId) (m : List (MultiplierId × Multiplier))
      (B : BlockNumber)
  | opRemoveBen (caller a : AccountId)
  | opUpdateBase (caller : AccountId) (v : Balance) (B : BlockNumber)
  | opAddMult (caller : AccountId) (name : String)
  | opUpdatePeriod (caller : AccountId) (v : Nat) (B : BlockNumber)
  | opPause (caller : AccountId) (B : BlockNumber)
  | opResume (caller : AccountId)

/-- Dispatch of one message body. -/
def applyOp (s : OpenPayroll) : Op → Except Error OpenPayroll
  | .opClaim a amount B tr tok => claim_payment s a amount B tr tok
  | .opDeactivate id B => deactivate_multiplier s id B
  | .opDelete id B => delete_unused_multiplier s id B
  | .opPropose caller n => propose_transfer_ownership s caller n
  | .opAccept caller => accept_ownership s caller
  | .opAddBen caller a m B => add_beneficiary s caller a m B
  | .opUpdateBen caller a m B => update_beneficiary s caller a m B
  | .opRemoveBen caller a => remove_beneficiary s caller a
  | .opUpdateBase caller v B => update_base_payment s caller v B
  | .opAddMult caller name => add_base_multiplier s caller name
  | .opUpdatePeriod caller v B => update_periodicity s caller v B
  | .opPause caller B => pause s caller B
  | .opResume caller => resume s caller

/-- ink! dispatch semantics of one message: an error reverts all writes. -/
def stepOp (s : OpenPayroll) (op : Op) : OpenPayroll :=
  match applyOp s op with
  | .ok s' => s'
  | .error _ => s

/-- States reachable from any successful construction by any sequence of
messages. -/
inductive Reachable : OpenPayroll → Prop where
  | init (p : Nat) (bp : Balance) (names : List String)
      (bens : List InitialBeneficiary) (B : BlockNumber) (caller : AccountId)
      (s : OpenPayroll) : new p bp names bens B caller = .ok s → Reachable s
  | step (s : OpenPayroll) (op : Op) : Reachable s → Reachable (stepOp s op)

/-- Any successful message preserves the strengthened invariant. -/
theorem applyOp_ok_FullInv {s s' : OpenPayroll} {op : Op}
    (h : applyOp s op = .ok s') (hI : FullInv s) : FullInv s' := by
  cases op with
  | opClaim a amount B tr tok => exact FullInv_claim h hI
  | opDeactivate id B => exact FullInv_deactivate h hI
  | opDelete id B => exact FullInv_delete h hI
  | opPropose caller n => exact FullInv_propose h hI
  | opAccept caller => exact FullInv_accept h hI
  | opAddBen caller a m B => exact FullInv_addBen h hI
  | opUpdateBen caller a m B => exact FullInv_updateBen h hI
  | opRemoveBen caller a => exact FullInv_removeBen h hI
  | opUpdateBase caller v B => exact FullInv_updateBase h hI
  | opAddMult caller name => exact FullInv_addMult h hI
  | opUpdatePeriod caller v B => exact FullInv_updatePeriod h hI
  | opPause caller B => exact FullInv_pause h hI
  | opResume caller => exact FullInv_resume h hI

/-- One dispatched step preserves the strengthened invariant. -/
theorem FullInv_step (s : OpenPayroll) (op : Op) (hI : FullInv s) :
    FullInv (stepOp s op) := by
  unfold stepOp
  cases hap : applyOp s op with
  | error e => exact hI
  | ok s' => exact applyOp_ok_FullInv hap hI

/-- **C10**: in every state reachable by any sequence of operations from
construction, the key set of the beneficiaries map equals the entries of the
`beneficiaries_accounts` vector with no duplicates, and the key set of the
base-multipliers map equals the `multipliers_list` with no duplicates. -/
theorem C10_container_sync (s : OpenPayroll) (h : Reachable s) : SyncInv s := by
  have main : ∀ t, Reachable t → FullInv t := by
    intro t ht
    induction ht with
    | init p bp names bens B caller t hnew => exact new_FullInv hnew
    | step t op _ ih => exact FullInv_step t op ih
  exact (main s h).1

/-- Witness for C10: the construction trace of `state0` is reachable and
satisfies the invariant. -/
theorem C10_container_sync_witness : SyncInv state0 :=
  C10_container_sync state0
    (Reachable.init 2 1000 ["Seniority", "Performance"] initBens 0 0 state0 (by rfl))

end OpenPayrollModel
